import Mathlib

/- ==================================================================
   Shallow embedding of the MUD turn-resolution engine.

   Sources embedded here:
   - rules engine        (src/unnamed/part_004, second revision)
   - player state store  (src/unnamed/part_001)
   - combat resolver     (src/unnamed/part_003, second revision:
                          dodge + improvise variant)
   - game engine         (src/server/engine/gameEngine.js, first
                          revision: the one with skills, flee, map,
                          inspect and the post-turn mob aggro pass)

   Conventions of the embedding:
   - JS numbers are modelled as `Int` (all engine arithmetic on stats,
     hp, xp is integral); `Math.floor` composed with halving or integer
     division by a positive literal coincides with `Int` division
     (which rounds toward negative infinity).
   - `Math.random()` is modelled as consuming the head of an explicit
     stream `List ℚ` of draws (each draw stands for the float in
     [0,1)); an exhausted stream yields 0.
   - Firestore documents are association lists keyed by id; `setDoc`
     overwrites in place or appends.
   - JS runtime exceptions (reading a field of `null`, indexing an
     empty array) are modelled with `Except String`: the source lets
     them propagate to the caller as a fatal error for the turn.
   ================================================================== -/

/- ------------------ generic string / list helpers ------------------ -/

/-- Does `l` start with the characters of the first list? (helper for
JS `String.prototype.includes`). -/
def startsWithL : List Char → List Char → Bool
  | [], _ => true
  | _ :: _, [] => false
  | a :: as, b :: bs => a == b && startsWithL as bs

/-- Substring containment on character lists (JS `includes`). -/
def containsSubL (l sub : List Char) : Bool :=
  match l with
  | [] => sub.isEmpty
  | _ :: rest => startsWithL sub l || containsSubL rest sub

/-- JS `s.includes(sub)`. -/
def strContains (s sub : String) : Bool := containsSubL s.data sub.data

/-- JS `s.toLowerCase()` (ASCII, which covers all engine data). -/
def toLowerStr (s : String) : String := String.mk (s.data.map Char.toLower)

/-- JS `s.toUpperCase()` (ASCII). -/
def toUpperStr (s : String) : String := String.mk (s.data.map Char.toUpper)

/-- JS `s.replace(/[\s_]/g, '')`. -/
def stripSpaceUnderscore (s : String) : String :=
  String.mk (s.data.filter
    (fun c => !(c == ' ' || c == '_' || c == '\t' || c == '\n' || c == '\r')))

/-- The `.toLowerCase().replace(/[\s_]/g, '')` normalisation the engine
applies before substring matching of item names and ids. -/
def normalizeSearch (s : String) : String := stripSpaceUnderscore (toLowerStr s)

/-- Lookup in an association list (Firestore `getDoc` on one collection). -/
def getAssoc {α : Type} (l : List (String × α)) (k : String) : Option α :=
  (l.find? (fun kv => kv.1 == k)).map (·.2)

/-- Overwrite-or-insert in an association list (Firestore `setDoc`). -/
def setAssoc {α : Type} (l : List (String × α)) (k : String) (v : α) :
    List (String × α) :=
  if l.any (fun kv => kv.1 == k) then
    l.map (fun kv => if kv.1 == k then (k, v) else kv)
  else l ++ [(k, v)]

/-- JS template interpolation of a possibly-undefined string. -/
def optStr (o : Option String) : String := o.getD "undefined"

/-- Draw one `Math.random()` value from the explicit stream. -/
def randDraw (rng : List ℚ) : ℚ × List ℚ := (rng.headD 0, rng.tail)

/- ------------------ rules engine (part_004, second revision) ------- -/

def BASE_STAT : Int := 10
def STAT_POINTS_PER_LEVEL : Int := 2
def BASE_HP : Int := 50
def BASE_INVENTORY_SLOTS : Int := 10
def MAX_SKILL_LEVEL : Int := 10

/-- `getModifier(statValue) = Math.floor((statValue - 10) / 2)`. -/
def getModifier (statValue : Int) : Int := (statValue - 10) / 2

/-- `calculateMaxHp(level, con) = BASE_HP + con*2 + level*5`. -/
def calculateMaxHp (level con : Int) : Int := BASE_HP + con * 2 + level * 5

/-- `calculateDamage(weaponAttack, attackerStr, targetDefense)`,
minimum 1 damage. -/
def calculateDamage (weaponAttack attackerStr targetDefense : Int) : Int :=
  let strMod := getModifier attackerStr
  let raw := weaponAttack + strMod - targetDefense
  max 1 raw

/-- `xpToNextLevel(currentLevel) = currentLevel * 100`. -/
def xpToNextLevel (currentLevel : Int) : Int := currentLevel * 100

/-- `calculateInventorySlots(str) = BASE_INVENTORY_SLOTS + getModifier(str)`. -/
def calculateInventorySlots (str : Int) : Int :=
  BASE_INVENTORY_SLOTS + getModifier str

/-- `calculateHazardDamage(hazardLevel)`: hazardLevel * 1d6, and 0 with
no random draw consumed when `hazardLevel <= 0`. -/
def calculateHazardDamage (hazardLevel : Int) (rng : List ℚ) : Int × List ℚ :=
  if hazardLevel ≤ 0 then (0, rng)
  else
    let (u, rng') := randDraw rng
    let d6 := ⌊u * 6⌋ + 1
    (hazardLevel * d6, rng')

/-- The player's six ability scores. -/
structure Stats where
  str : Int
  dex : Int
  con : Int
  int : Int
  wis : Int
  cha : Int
deriving DecidableEq

/-- `allocateStatPoint(stats, statName)`: `none` models the
`{ success: false }` return for a name outside STATS. -/
def allocateStatPoint (stats : Stats) (statName : String) : Option Stats :=
  if statName == "str" then some { stats with str := stats.str + 1 }
  else if statName == "dex" then some { stats with dex := stats.dex + 1 }
  else if statName == "con" then some { stats with con := stats.con + 1 }
  else if statName == "int" then some { stats with int := stats.int + 1 }
  else if statName == "wis" then some { stats with wis := stats.wis + 1 }
  else if statName == "cha" then some { stats with cha := stats.cha + 1 }
  else none

/-- Read a stat by its JS property name (0 for an unknown name, which
the engine never reaches because allocation already validated it). -/
def statGet (stats : Stats) (statName : String) : Int :=
  if statName == "str" then stats.str
  else if statName == "dex" then stats.dex
  else if statName == "con" then stats.con
  else if statName == "int" then stats.int
  else if statName == "wis" then stats.wis
  else if statName == "cha" then stats.cha
  else 0

/-- One `(itemId, weight)` row of a loot table. -/
structure LootEntry where
  itemId : String
  weight : ℚ
deriving DecidableEq

/-- A named weighted loot list (`lootTable.items`). -/
structure LootTable where
  items : List LootEntry
deriving DecidableEq

/-- Cumulative-subtraction scan of `rollLoot`: returns the first entry
bringing the running remainder to `<= 0`. -/
def rollLootScan (roll : ℚ) : List LootEntry → Option String
  | [] => none
  | e :: rest =>
      if roll - e.weight ≤ 0 then some e.itemId else rollLootScan (roll - e.weight) rest

/-- `rollLoot(lootTable)`: weighted random pick; the last entry is the
fallback. `none` only for an empty table, where the source would throw
on `entries[entries.length - 1].itemId`. -/
def rollLoot (lootTable : LootTable) (rng : List ℚ) : Option String × List ℚ :=
  let entries := lootTable.items
  let totalWeight := (entries.map (·.weight)).sum
  let (u, rng') := randDraw rng
  let roll := u * totalWeight
  match rollLootScan roll entries with
  | some itemId => (some itemId, rng')
  | none => ((entries.getLast?).map (·.itemId), rng')

/-- `LOOTBOX_XP[tier] || 10`. -/
def lootboxXpReward (tier : String) : Int :=
  if tier == "iron" then 10
  else if tier == "bronze" then 25
  else if tier == "silver" then 50
  else if tier == "gold" then 100
  else 10

/-- Result record of `rollSkillCheck`. -/
structure SkillCheck where
  success : Bool
  roll : Int
  threshold : Int
  margin : Int
deriving DecidableEq

/-- `rollSkillCheck(skillLevel, statValue, baseDifficulty)`: clamped
threshold, a d100 roll, success iff `roll >= threshold`. -/
def rollSkillCheck (skillLevel statValue baseDifficulty : Int) (rng : List ℚ) :
    SkillCheck × List ℚ :=
  let statMod := getModifier statValue
  let skillBonus := skillLevel * 5
  let statBonus := statMod * 3
  let threshold := max 5 (min 95 (baseDifficulty - skillBonus - statBonus))
  let (u, rng') := randDraw rng
  let roll := ⌊u * 100⌋ + 1
  ({ success := decide (threshold ≤ roll), roll := roll, threshold := threshold,
     margin := roll - threshold }, rng')

/-- `checkSkillLevelUp(currentLevel)`: no draw at the level cap, else a
single draw against `max(0.02, 0.15 - (currentLevel-1)*0.02)`. -/
def checkSkillLevelUp (currentLevel : Int) (rng : List ℚ) : Bool × List ℚ :=
  if MAX_SKILL_LEVEL ≤ currentLevel then (false, rng)
  else
    let chance : ℚ := max (2/100) (15/100 - (currentLevel - 1) * (2/100))
    let (u, rng') := randDraw rng
    (decide (u < chance), rng')

/- ------------------ data model ------------------------------------- -/

/-- The `stats` bag of an item (missing JS fields read as 0 through
`|| 0`; a zero `healAmount` is falsy exactly like a missing one). -/
structure ItemStats where
  attack : Int := 0
  defense : Int := 0
  healAmount : Int := 0
deriving DecidableEq

/-- An item document / inventory instance (copied by value). -/
structure Item where
  itemId : String
  name : String
  type : String
  tier : String
  stats : ItemStats := {}
  slot : Option String := none
  rarity : Option ℚ := none
  isCustom : Bool := false
deriving DecidableEq

/-- The `{...null}` spread the source produces when a room references a
missing item document: an object with every field undefined. -/
def emptyItem : Item :=
  { itemId := "", name := "", type := "", tier := "" }

/-- `item.rarity || 0.1`. -/
def rarityOrDefault (r : Option ℚ) : ℚ :=
  match r with
  | none => 1/10
  | some q => if q = 0 then 1/10 else q

/-- Cumulative-subtraction scan of `rollRandomItemByRarity`. -/
def rollRarityScan (roll : ℚ) : List Item → Option String
  | [] => none
  | it :: rest =>
      if roll - rarityOrDefault it.rarity ≤ 0 then some it.itemId
      else rollRarityScan (roll - rarityOrDefault it.rarity) rest

/-- `rollRandomItemByRarity(items)`: `null` for an empty list, else a
weighted pick with the last item as fallback. -/
def rollRandomItemByRarity (items : List Item) (rng : List ℚ) :
    Option String × List ℚ :=
  if items.isEmpty then (none, rng)
  else
    let totalRarity := (items.map (fun it => rarityOrDefault it.rarity)).sum
    let (u, rng') := randDraw rng
    let roll := u * totalRarity
    match rollRarityScan roll items with
    | some itemId => (some itemId, rng')
    | none => ((items.getLast?).map (·.itemId), rng')

/-- An entity (mob/NPC) document. -/
structure Entity where
  entityId : String
  name : String
  entityClass : String
  hp : Int
  maxHp : Int
  attack : Int
  defense : Int
  xpReward : Int := 0
  lootTableId : Option String := none
  respawns : Bool := false
  dialogue : List String := []
deriving DecidableEq

/-- A room (world node) document. `connections` is the JS object of
directional exits; a `none` value is an explicit `null` exit. -/
structure Node where
  nodeId : String
  zoneType : String := ""
  baseDescription : String := ""
  hazardLevel : Int := 0
  connections : List (String × Option String) := []
  entities : List String := []
  items : List String := []
deriving DecidableEq

/-- `Object.entries(node.connections).filter(([,v]) => v !== null)`. -/
def exitsOf (node : Node) : List (String × String) :=
  node.connections.filterMap (fun kv => kv.2.map (fun v => (kv.1, v)))

/-- The player aggregate. Fields the engine backfills for legacy
documents (`skills`, `statistics`, `explored`) are modelled as always
present, which is what the engine guarantees after its own load path.
`eventLog` keeps only the event tags; the wall-clock timestamps the
source attaches are outside the embedding. -/
structure Player where
  id : String
  name : String
  level : Int
  xp : Int
  stats : Stats
  skills : List (String × Int)
  hp : Int
  maxHp : Int
  location : String
  inventory : List Item
  equipment : List (String × Item)
  eventLog : List String := []
  statPointsAvailable : Int := 0
  alive : Bool := true
  explored : List String := []
  statisticsLootboxesOpened : Int := 0
  statisticsEntitiesKilled : Int := 0
deriving DecidableEq

/-- The external document store: one association list per collection. -/
structure World where
  players : List (String × Player) := []
  nodes : List (String × Node) := []
  entities : List (String × Entity) := []
  items : List (String × Item) := []
  lootTables : List (String × LootTable) := []
deriving DecidableEq

def World.getPlayer (w : World) (id : String) : Option Player := getAssoc w.players id
def World.getNode (w : World) (id : String) : Option Node := getAssoc w.nodes id
def World.getEntity (w : World) (id : String) : Option Entity := getAssoc w.entities id
def World.getItem (w : World) (id : String) : Option Item := getAssoc w.items id
def World.getLootTable (w : World) (id : String) : Option LootTable := getAssoc w.lootTables id
def World.setNode (w : World) (id : String) (n : Node) : World :=
  { w with nodes := setAssoc w.nodes id n }
def World.setEntity (w : World) (id : String) (e : Entity) : World :=
  { w with entities := setAssoc w.entities id e }

/- ------------------ player state store (part_001) ------------------ -/

/-- `addEvent`: append to the player's log and keep the last 20. -/
def addEvent (player : Player) (tag : String) : Player :=
  let log := player.eventLog ++ [tag]
  { player with eventLog := if 20 < log.length then log.drop (log.length - 20) else log }

/-- `savePlayer`: full-document overwrite into the store. -/
def savePlayer (w : World) (player : Player) : World :=
  { w with players := setAssoc w.players player.id player }

/-- `getPlayerAttack`: the equipped weapon's attack stat, 0 unarmed. -/
def getPlayerAttack (player : Player) : Int :=
  match getAssoc player.equipment "weapon" with
  | some it => it.stats.attack
  | none => 0

/-- `getPlayerDefense`: head + chest + feet defense stats. -/
def getPlayerDefense (player : Player) : Int :=
  (["head", "chest", "feet"].map (fun slot =>
    match getAssoc player.equipment slot with
    | some it => it.stats.defense
    | none => 0)).sum

/-- `getInventoryCapacity`. -/
def getInventoryCapacity (player : Player) : Int :=
  calculateInventorySlots player.stats.str

/-- `getSkillLevel`: `player.skills[skillName] || 1`. -/
def getSkillLevel (player : Player) (skillName : String) : Int :=
  match getAssoc player.skills skillName with
  | none => 1
  | some v => if v = 0 then 1 else v

/-- `player.skills[name] = (player.skills[name] || 1) + 1`. -/
def bumpSkill (player : Player) (skillName : String) : Player :=
  { player with
    skills := setAssoc player.skills skillName (getSkillLevel player skillName + 1) }

/- ------------------ events -------------------------------------- -/

/-- The tagged event records a turn emits. Constructor fields mirror the
JS event payloads the narration layer binds to. -/
inductive GEvent where
  | error (message : String)
  | unknownAction (text : Option String)
  | skillCheckPassive (skillName : String) (detail : String)
  | skillCheck (skillName : String) (result : String) (roll threshold : Int) (detail : String)
  | skillLevelUp (skillName : String) (newLevel : Int)
  | playerAttack (damage : Int) (targetId targetName : String) (targetHp targetMaxHp : Int) (weaponUsed : String)
  | entityKilled (entityId entityName entityClass : String) (xpReward : Int)
  | entityAttack (damage : Int) (attackerName : String) (playerHp playerMaxHp : Int)
  | playerDeath (killedBy : String)
  | xpGained (amount totalXp : Int)
  | levelUp (newLevel : Int) (statPointsAvailable newMaxHp : Int)
  | hazardDamage (damage hazardLevel playerHp playerMaxHp : Int)
  | itemSpawn (itemName itemType itemTier : String)
  | moveEv (fromId toId direction : String) (context : Option String)
  | roomDescription (nodeId zoneType baseDescription : String) (hazardLevel : Int)
      (entities items exits : List String)
  | itemPickup (itemId itemName itemType itemTier : String)
  | itemUsed (itemName : String) (amount playerHp playerMaxHp : Int)
  | itemUnequipped (itemName slot : String)
  | itemEquipped (itemName itemType slot : String) (stats : ItemStats)
  | inventoryList (names : List String) (weapon head chest feet : String) (used capacity : Int)
  | statsDisplay (name : String) (level xp xpToNext hp maxHp : Int) (stats : Stats)
      (skills : List (String × Int)) (attack defense statPointsAvailable : Int)
  | mapDisplay (mapString : String)
  | statAllocated (stat : String) (newValue statPointsRemaining : Int)
  | lootDropped (itemId itemName itemTier : String)
  | lootboxOpened (boxName boxTier receivedItem receivedTier receivedType : String)
  | lootboxXp (amount : Int) (tier : String) (totalXp : Int)
  | talk (entityName message : String)
  | itemInspected (item : Item)
deriving DecidableEq

/-- The JS `type` tag of an event (used by the aggro pass's
`events.find(e => e.type === 'player_attack')`). -/
def GEvent.typeTag : GEvent → String
  | .error _ => "error"
  | .unknownAction _ => "unknown_action"
  | .skillCheckPassive _ _ => "skill_check"
  | .skillCheck _ _ _ _ _ => "skill_check"
  | .skillLevelUp _ _ => "skill_level_up"
  | .playerAttack _ _ _ _ _ _ => "player_attack"
  | .entityKilled _ _ _ _ => "entity_killed"
  | .entityAttack _ _ _ _ => "entity_attack"
  | .playerDeath _ => "player_death"
  | .xpGained _ _ => "xp_gained"
  | .levelUp _ _ _ => "level_up"
  | .hazardDamage _ _ _ _ => "hazard_damage"
  | .itemSpawn _ _ _ => "item_spawn"
  | .moveEv _ _ _ _ => "move"
  | .roomDescription _ _ _ _ _ _ _ => "room_description"
  | .itemPickup _ _ _ _ => "item_pickup"
  | .itemUsed _ _ _ _ => "item_used"
  | .itemUnequipped _ _ => "item_unequipped"
  | .itemEquipped _ _ _ _ => "item_equipped"
  | .inventoryList _ _ _ _ _ _ _ => "inventory_list"
  | .statsDisplay _ _ _ _ _ _ _ _ _ _ _ => "stats_display"
  | .mapDisplay _ => "map_display"
  | .statAllocated _ _ _ => "stat_allocated"
  | .lootDropped _ _ _ => "loot_dropped"
  | .lootboxOpened _ _ _ _ _ => "lootbox_opened"
  | .lootboxXp _ _ _ => "lootbox_xp"
  | .talk _ _ => "talk"
  | .itemInspected _ => "item_inspected"

/-- `combatEvent.targetId` of a `player_attack` event. -/
def GEvent.attackTargetId : GEvent → Option String
  | .playerAttack _ targetId _ _ _ _ => some targetId
  | _ => none

/- ------------------ combat resolver (part_003, second revision) ---- -/

/-- `player.hp = Math.max(0, player.hp - damage)`. -/
def applyPlayerDamage (player : Player) (damage : Int) : Player :=
  { player with hp := max 0 (player.hp - damage) }

/-- Output of `rollDodge`. -/
structure DodgeOut where
  events : List GEvent
  dodged : Bool
  player : Player
  rng : List ℚ
deriving DecidableEq

/-- `rollDodge(player, entity)`: a dodge skill check against
`65 + Math.floor(entity.attack / 2)`; a success may also level the
dodge skill up. A failed dodge emits no event. -/
def rollDodge (player : Player) (entity : Entity) (rng : List ℚ) : DodgeOut :=
  let dodgeLevel := getSkillLevel player "dodge"
  let baseDifficulty := 65 + entity.attack / 2
  let (check, rng1) := rollSkillCheck dodgeLevel player.stats.dex baseDifficulty rng
  if check.success then
    let ev := GEvent.skillCheck "Dodge" "success" check.roll check.threshold
      ("Dodged " ++ entity.name ++ "\x27s attack!")
    let (lvlUp, rng2) := checkSkillLevelUp dodgeLevel rng1
    if lvlUp then
      let player' := bumpSkill player "dodge"
      { events := [ev, GEvent.skillLevelUp "Dodge" (getSkillLevel player' "dodge")],
        dodged := true, player := player', rng := rng2 }
    else
      { events := [ev], dodged := true, player := player, rng := rng2 }
  else
    { events := [], dodged := false, player := player, rng := rng1 }

/-- Output of `resolveCombat`. -/
structure CombatOut where
  events : List GEvent
  entityDead : Bool
  playerDead : Bool
  player : Player
  entity : Entity
  rng : List ℚ
deriving DecidableEq

/-- `resolveCombat(player, entity)`: player attack (with the improvise
passive when bare-handed), death check, then — if the entity lives — a
dodge check and the entity's counter-attack. -/
def resolveCombat (player : Player) (entity : Entity) (rng : List ℚ) : CombatOut :=
  let weaponAttack0 := getPlayerAttack player
  let isBareFists := (getAssoc player.equipment "weapon").isNone
  let improviseMod :=
    if isBareFists then getSkillLevel player "improvise" / 2 else 0
  let weaponAttack := weaponAttack0 + improviseMod
  let passiveEvents :=
    if isBareFists && 0 < improviseMod then
      [GEvent.skillCheckPassive "Improvise"
        ("+" ++ toString improviseMod ++ " improvised attack bonus")]
    else []
  let playerDamage := calculateDamage weaponAttack player.stats.str entity.defense
  let entity' := { entity with hp := max 0 (entity.hp - playerDamage) }
  let weaponUsed :=
    match getAssoc player.equipment "weapon" with
    | some it => it.name
    | none => "bare fists (improvised)"
  let attackEv := GEvent.playerAttack playerDamage entity'.entityId entity'.name
    entity'.hp entity'.maxHp weaponUsed
  if entity'.hp ≤ 0 then
    { events := passiveEvents ++ [attackEv,
        GEvent.entityKilled entity'.entityId entity'.name entity'.entityClass entity'.xpReward],
      entityDead := true, playerDead := false,
      player := player, entity := entity', rng := rng }
  else
    let d := rollDodge player entity' rng
    if d.dodged then
      { events := passiveEvents ++ attackEv :: d.events,
        entityDead := false, playerDead := false,
        player := d.player, entity := entity', rng := d.rng }
    else
      let playerDefense := getPlayerDefense d.player
      let entityDamage := calculateDamage entity'.attack 10 playerDefense
      let player' := applyPlayerDamage d.player entityDamage
      let hitEv := GEvent.entityAttack entityDamage entity'.name player'.hp player'.maxHp
      if player'.hp ≤ 0 then
        { events := passiveEvents ++ attackEv :: d.events ++
            [hitEv, GEvent.playerDeath entity'.name],
          entityDead := false, playerDead := true,
          player := player', entity := entity', rng := d.rng }
      else
        { events := passiveEvents ++ attackEv :: d.events ++ [hitEv],
          entityDead := false, playerDead := false,
          player := player', entity := entity', rng := d.rng }

/-- Output of `resolveEnemyAttack`. -/
structure EnemyAttackOut where
  events : List GEvent
  playerDead : Bool
  player : Player
  rng : List ℚ
deriving DecidableEq

/-- `resolveEnemyAttack(player, entity)`: the standalone mob-aggression
attack — dodge check, then damage, then player-death check. -/
def resolveEnemyAttack (player : Player) (entity : Entity) (rng : List ℚ) :
    EnemyAttackOut :=
  let d := rollDodge player entity rng
  if d.dodged then
    { events := d.events, playerDead := false, player := d.player, rng := d.rng }
  else
    let playerDefense := getPlayerDefense d.player
    let entityDamage := calculateDamage entity.attack 10 playerDefense
    let player' := applyPlayerDamage d.player entityDamage
    let hitEv := GEvent.entityAttack entityDamage entity.name player'.hp player'.maxHp
    if player'.hp ≤ 0 then
      { events := d.events ++ [hitEv, GEvent.playerDeath entity.name],
        playerDead := true, player := player', rng := d.rng }
    else
      { events := d.events ++ [hitEv], playerDead := false,
        player := player', rng := d.rng }

/- ------------------ level-up loop (gameEngine.js, first revision) -- -/

/-- One iteration body of the `checkLevelUp` while-loop. -/
def levelUpStep (player : Player) : Player :=
  { player with
    xp := player.xp - xpToNextLevel player.level,
    level := player.level + 1,
    statPointsAvailable := player.statPointsAvailable + STAT_POINTS_PER_LEVEL,
    maxHp := calculateMaxHp (player.level + 1) player.stats.con,
    hp := calculateMaxHp (player.level + 1) player.stats.con }

/-- `checkLevelUp(player)`: repeat while `xp >= xpToNextLevel(level)`,
carrying remainder XP, granting STAT_POINTS_PER_LEVEL points and a full
heal to the recomputed maxHp, emitting one `level_up` event per level
gained. Terminates because the quadratic measure below strictly drops at
each iteration, whatever the starting (possibly corrupt) level. -/
def checkLevelUp (player : Player) : Player × List GEvent :=
  if xpToNextLevel player.level ≤ player.xp then
    ((checkLevelUp (levelUpStep player)).1,
      GEvent.levelUp (levelUpStep player).level
          (levelUpStep player).statPointsAvailable (levelUpStep player).maxHp
        :: (checkLevelUp (levelUpStep player)).2)
  else (player, [])
termination_by (player.xp + 50 * (player.level * player.level) - 51 * player.level + 1).toNat
decreasing_by
  simp only [levelUpStep, xpToNextLevel, STAT_POINTS_PER_LEVEL] at *
  have hsq : 0 ≤ 50 * (player.level * player.level) + 49 * player.level := by
    rcases le_or_lt 0 player.level with h0 | h0
    · nlinarith [mul_nonneg h0 h0]
    · nlinarith [mul_nonneg (a := -player.level) (b := -(50 * player.level + 49))
        (by omega) (by omega)]
  have hexp : (player.level + 1) * (player.level + 1)
      = player.level * player.level + 2 * player.level + 1 := by ring
  rw [hexp]
  generalize player.level * player.level = L2 at hsq ⊢
  omega

/- ------------------ game engine (gameEngine.js, first revision) ---- -/

/-- The validated structured command the engine dispatches on. -/
structure Intent where
  action : String
  target : Option String := none
  direction : Option String := none
  context : Option String := none
  text : Option String := none
deriving DecidableEq

/-- What one action handler returns: the event log, the (in-memory)
player, the possibly-updated store, and the remaining random stream. -/
structure TurnOut where
  events : List GEvent
  player : Player
  world : World
  rng : List ℚ
deriving DecidableEq

/-- What `processAction` returns (`player` is `none` only for the
player-not-found precondition). -/
structure ProcOut where
  events : List GEvent
  player : Option Player
  world : World
  rng : List ℚ
deriving DecidableEq

/-- Model of a JS runtime exception: reading a property of
null/undefined aborts the turn and propagates to the caller. -/
def orThrow {α : Type} (o : Option α) (msg : String) : Except String α :=
  match o with
  | some a => Except.ok a
  | none => Except.error msg

/-- `buildLookEvents(node)`: one `room_description` event. The source
resolves each present entity/item document to a small display object;
the embedding keeps the resolved ids (living entities only, existing
items only) — the narration payload fields beyond that are inert. -/
def buildLookEvents (w : World) (node : Node) : List GEvent :=
  let entitiesPresent := node.entities.filterMap (fun eid =>
    match w.getEntity eid with
    | some e => if 0 < e.hp then some e.entityId else none
    | none => none)
  let itemsPresent := node.items.filterMap (fun iid => (w.getItem iid).map (·.itemId))
  let exits := (exitsOf node).map (fun kv => toUpperStr kv.1)
  [GEvent.roomDescription node.nodeId node.zoneType node.baseDescription
    node.hazardLevel entitiesPresent itemsPresent exits]

/-- `handleLook`. -/
def handleLook (w : World) (player : Player) (rng : List ℚ) : Except String TurnOut :=
  match w.getNode player.location with
  | none => .ok ⟨[.error "Location data missing."], player, w, rng⟩
  | some node => .ok ⟨buildLookEvents w node, player, w, rng⟩

/-- The hazard phase of `handleMove`: sense-danger check, trap roll,
hazard damage, possible death. Returns (events, player, rng). -/
def moveHazardPhase (newNode : Node) (player : Player) (rng : List ℚ) :
    List GEvent × Player × List ℚ :=
  if 0 < newNode.hazardLevel then
    let senseDangerLevel := getSkillLevel player "senseDanger"
    let (dangerCheck, rng1) :=
      rollSkillCheck senseDangerLevel player.stats.wis (55 + newNode.hazardLevel * 10) rng
    let (evs1, player1, rng2) :=
      if dangerCheck.success then
        let ev := GEvent.skillCheck "Sense Danger" "success" dangerCheck.roll
          dangerCheck.threshold "Something feels wrong about this place..."
        let (lvlUp, rng2) := checkSkillLevelUp senseDangerLevel rng1
        if lvlUp then
          let player1 := bumpSkill player "senseDanger"
          ([ev, GEvent.skillLevelUp "Sense Danger" (getSkillLevel player1 "senseDanger")],
            player1, rng2)
        else ([ev], player, rng2)
      else ([], player, rng1)
    let trapChance : ℚ := (newNode.hazardLevel : ℚ) * (15/100)
    let (u, rng3) := randDraw rng2
    if u < trapChance then
      let (hazardDmg, rng4) := calculateHazardDamage newNode.hazardLevel rng3
      let player2 := applyPlayerDamage player1 hazardDmg
      let ev2 := GEvent.hazardDamage hazardDmg newNode.hazardLevel player2.hp player2.maxHp
      if player2.hp ≤ 0 then
        (evs1 ++ [ev2, GEvent.playerDeath "a hidden trap"],
          { player2 with alive := false }, rng4)
      else (evs1 ++ [ev2], player2, rng4)
    else (evs1, player1, rng3)
  else ([], player, rng)

/-- The scavenge item-spawn phase of `handleMove`. Returns
(events, player, newNode, world, rng). When the rolled item id is not
found back in the spawnable list (unreachable, since the roller returns
a member) the node write has already happened, matching the source's
mutation order. -/
def moveSpawnPhase (w : World) (newNode : Node) (player : Player) (rng : List ℚ) :
    List GEvent × Player × Node × World × List ℚ :=
  if player.alive then
    let scavengeLevel := getSkillLevel player "scavenge"
    let spawnChance : ℚ := 25/100 + (scavengeLevel : ℚ) * (2/100)
    let (u, rng1) := randDraw rng
    if u < spawnChance then
      let allItems := w.items.map (·.2)
      if allItems.isEmpty then ([], player, newNode, w, rng1)
      else
        let spawnableItems := allItems.filter (fun i => !i.isCustom)
        if spawnableItems.isEmpty then ([], player, newNode, w, rng1)
        else
          match rollRandomItemByRarity spawnableItems rng1 with
          | (none, rng2) => ([], player, newNode, w, rng2)
          | (some newItemId, rng2) =>
            let newNode' := { newNode with items := newNode.items ++ [newItemId] }
            let w' := w.setNode newNode'.nodeId newNode'
            match spawnableItems.find? (fun i => i.itemId == newItemId) with
            | some spawnedItem =>
              let ev := GEvent.itemSpawn spawnedItem.name spawnedItem.type spawnedItem.tier
              let (lvlUp, rng3) := checkSkillLevelUp scavengeLevel rng2
              if lvlUp then
                let player' := bumpSkill player "scavenge"
                ([ev, GEvent.skillLevelUp "Scavenge" (getSkillLevel player' "scavenge")],
                  player', newNode', w', rng3)
              else ([ev], player, newNode', w', rng3)
            | none => ([], player, newNode', w', rng2)
    else ([], player, newNode, w, rng1)
  else ([], player, newNode, w, rng)

/-- `handleMove`: exit validation, relocation + explored tracking, the
hazard phase, the scavenge phase, then the move and look events. -/
def handleMove (w : World) (player : Player) (intent : Intent) (rng : List ℚ) :
    Except String TurnOut :=
  match w.getNode player.location with
  | none => .ok ⟨[.error "Current location not found in database."], player, w, rng⟩
  | some currentNode =>
    let conn : Option String :=
      match intent.direction with
      | none => none
      | some d =>
        match getAssoc currentNode.connections d with
        | some (some v) => some v
        | _ => none
    match conn with
    | none =>
      let exits := String.intercalate ", "
        ((exitsOf currentNode).map (fun kv => toUpperStr kv.1))
      .ok ⟨[.error ("You can\x27t go " ++ (intent.direction.getD "that way")
        ++ ". Exits: " ++ exits)], player, w, rng⟩
    | some newNodeId =>
      match w.getNode newNodeId with
      | none => .ok ⟨[.error "Destination node not found."], player, w, rng⟩
      | some newNode =>
        let player := { player with
          location := newNodeId,
          explored := if player.explored.contains newNodeId then player.explored
            else player.explored ++ [newNodeId] }
        let (hazardEvents, player, rng) := moveHazardPhase newNode player rng
        let (spawnEvents, player, newNode, w, rng) := moveSpawnPhase w newNode player rng
        let moveEv := GEvent.moveEv currentNode.nodeId newNode.nodeId
          (intent.direction.getD "") intent.context
        let lookEvents := buildLookEvents w newNode
        let player := addEvent player "move"
        let w := savePlayer w player
        .ok ⟨hazardEvents ++ spawnEvents ++ [moveEv] ++ lookEvents, player, w, rng⟩

/-- `handleAttack`'s target resolution: exact id match over the room's
entity list, then case-insensitive substring match on entity names. -/
def resolveAttackTarget (w : World) (node : Node) (target : Option String) :
    Option String :=
  match node.entities.find? (fun eid => target == some eid) with
  | some eid => some eid
  | none =>
    node.entities.find? (fun eid =>
      match w.getEntity eid with
      | some e => strContains (toLowerStr e.name) (toLowerStr (target.getD ""))
      | none => false)

/-- The loot phase of a kill in `handleAttack`: a missing table or a
missing rolled item degrades to no loot; an empty table is the source's
`entries[entries.length-1].itemId` TypeError. -/
def attackLootPhase (w : World) (node : Node) (lootTableId : Option String)
    (rng : List ℚ) : Except String (List GEvent × Node × World × List ℚ) :=
  match lootTableId with
  | none => .ok ([], node, w, rng)
  | some ltid =>
    match w.getLootTable ltid with
    | none => .ok ([], node, w, rng)
    | some lootTable =>
      match rollLoot lootTable rng with
      | (none, _) => .error "TypeError: cannot read itemId of undefined (empty loot table)"
      | (some lootItemId, rng1) =>
        match w.getItem lootItemId with
        | none => .ok ([], node, w, rng1)
        | some lootItem =>
          let node1 := { node with items := node.items ++ [lootItemId] }
          .ok ([GEvent.lootDropped lootItem.itemId lootItem.name lootItem.tier],
            node1, w.setNode node1.nodeId node1, rng1)

/-- `handleAttack`: resolve target, refuse dead targets, run the combat
resolver; on a kill award XP, run the level-up loop, roll loot into the
room and unlist a non-respawning entity; persist entity and player. -/
def handleAttack (w : World) (player : Player) (intent : Intent) (rng : List ℚ) :
    Except String TurnOut := do
  let node ← orThrow (w.getNode player.location)
    "TypeError: cannot read entities of null"
  match resolveAttackTarget w node intent.target with
  | none =>
    pure ⟨[.error ("No target \"" ++ optStr intent.target ++ "\" found here.")],
      player, w, rng⟩
  | some targetEntityId =>
    let deadReply : TurnOut :=
      ⟨[.error (optStr intent.target ++ " is already dead.")], player, w, rng⟩
    match w.getEntity targetEntityId with
    | none => pure deadReply
    | some entity =>
      if entity.hp ≤ 0 then pure deadReply
      else
        let c := resolveCombat player entity rng
        if c.entityDead then
          let player1 := { c.player with
            statisticsEntitiesKilled := c.player.statisticsEntitiesKilled + 1 }
          let xpGained := c.entity.xpReward
          let player2 := { player1 with xp := player1.xp + xpGained }
          let xpEv := GEvent.xpGained xpGained player2.xp
          let (player3, levelUpEvents) := checkLevelUp player2
          let (lootEvents, node1, w1, rng1) ←
            attackLootPhase w node c.entity.lootTableId c.rng
          let (_, w2) :=
            if c.entity.respawns then (node1, w1)
            else
              let node2 := { node1 with
                entities := node1.entities.filter (fun e => e != targetEntityId) }
              (node2, w1.setNode node2.nodeId node2)
          let w3 := w2.setEntity c.entity.entityId c.entity
          let player4 := if c.playerDead then { player3 with alive := false } else player3
          let player5 := addEvent player4 "combat"
          let w4 := savePlayer w3 player5
          pure ⟨c.events ++ [xpEv] ++ levelUpEvents ++ lootEvents, player5, w4, rng1⟩
        else
          let w1 := w.setEntity c.entity.entityId c.entity
          let player1 := if c.playerDead then { c.player with alive := false } else c.player
          let player2 := addEvent player1 "combat"
          let w2 := savePlayer w1 player2
          pure ⟨c.events, player2, w2, c.rng⟩

/-- The per-item scan of `handlePickup`: exact id comparison, then the
normalised substring match, item by item in room order. -/
def pickupScan (w : World) (target : Option String) : List String → Option Nat
  | [] => none
  | itemId :: rest =>
    if target == some itemId then some 0
    else
      match w.getItem itemId with
      | some item =>
        let searchStr := normalizeSearch (target.getD "")
        if strContains (normalizeSearch item.name) searchStr
            || strContains (normalizeSearch item.itemId) searchStr then some 0
        else (pickupScan w target rest).map (· + 1)
      | none => (pickupScan w target rest).map (· + 1)

/-- `handlePickup`: capacity gate, find the item in the room, move it
from the room list into the inventory by value copy. A room id whose
item document is missing copies as the empty `{...null}` object. -/
def handlePickup (w : World) (player : Player) (intent : Intent) (rng : List ℚ) :
    Except String TurnOut := do
  let node ← orThrow (w.getNode player.location)
    "TypeError: cannot read items of null"
  let capacity := getInventoryCapacity player
  if capacity ≤ (player.inventory.length : Int) then
    pure ⟨[.error ("Inventory full (" ++ toString capacity
      ++ " slots). Drop or use something first.")], player, w, rng⟩
  else
    match pickupScan w intent.target node.items with
    | none =>
      pure ⟨[.error ("No item \"" ++ optStr intent.target ++ "\" found here.")],
        player, w, rng⟩
    | some foundIndex =>
      let itemId := (node.items.get? foundIndex).getD ""
      let item := (w.getItem itemId).getD emptyItem
      let node1 := { node with items := node.items.eraseIdx foundIndex }
      let w1 := w.setNode node1.nodeId node1
      let player1 := { player with inventory := player.inventory ++ [item] }
      let ev := GEvent.itemPickup item.itemId item.name item.type item.tier
      let player2 := addEvent player1 "pickup"
      let w2 := savePlayer w1 player2
      pure ⟨[ev], player2, w2, rng⟩

/-- The normalised-substring inventory search shared by `handleUse` and
`handleEquip` (`objName.includes(searchStr) || objId.includes(searchStr)`). -/
def inventoryFindIdx (target : Option String) (inv : List Item) : Option Nat :=
  let searchStr := normalizeSearch (target.getD "")
  inv.findIdx? (fun i => strContains (normalizeSearch i.name) searchStr
    || strContains (normalizeSearch i.itemId) searchStr)

/-- `handleUse`: consumables only; heal clamped to `maxHp - hp` (a zero
`healAmount` is falsy and heals nothing); the item is removed. -/
def handleUse (w : World) (player : Player) (intent : Intent) (rng : List ℚ) :
    Except String TurnOut :=
  match inventoryFindIdx intent.target player.inventory with
  | none =>
    .ok ⟨[.error ("You don\x27t have \"" ++ optStr intent.target
      ++ "\" in your inventory.")], player, w, rng⟩
  | some idx =>
    let item := (player.inventory.get? idx).getD emptyItem
    if item.type != "consumable" then
      .ok ⟨[.error (item.name ++ " is not consumable. Try \"equip\" for gear.")],
        player, w, rng⟩
    else
      let (healEvents, player1) :=
        if item.stats.healAmount ≠ 0 then
          let healAmount := min item.stats.healAmount (player.maxHp - player.hp)
          let healed := { player with hp := player.hp + healAmount }
          ([GEvent.itemUsed item.name healAmount healed.hp healed.maxHp], healed)
        else ([], player)
      let player2 := { player1 with inventory := player1.inventory.eraseIdx idx }
      let player3 := addEvent player2 "use"
      .ok ⟨healEvents, player3, savePlayer w player3, rng⟩

/-- `handleEquip`: find the item, default a weapon's missing slot to
`weapon`, push any current occupant of the slot back to the inventory,
install the new item, recompute `maxHp`. -/
def handleEquip (w : World) (player : Player) (intent : Intent) (rng : List ℚ) :
    Except String TurnOut :=
  match inventoryFindIdx intent.target player.inventory with
  | none =>
    .ok ⟨[.error ("You don\x27t have \"" ++ optStr intent.target
      ++ "\" in your inventory.")], player, w, rng⟩
  | some idx =>
    let item0 := (player.inventory.get? idx).getD emptyItem
    let item := if item0.slot.isNone && item0.type == "weapon"
      then { item0 with slot := some "weapon" } else item0
    match item.slot with
    | none => .ok ⟨[.error (item.name ++ " cannot be equipped.")], player, w, rng⟩
    | some slot =>
      let (unequipEvents, inv1) :=
        match getAssoc player.equipment slot with
        | some currentEquipped =>
          ([GEvent.itemUnequipped currentEquipped.name slot],
            player.inventory ++ [currentEquipped])
        | none => ([], player.inventory)
      let player1 := { player with
        inventory := inv1.eraseIdx idx,
        equipment := setAssoc player.equipment slot item,
        maxHp := calculateMaxHp player.level player.stats.con }
      let ev := GEvent.itemEquipped item.name item.type slot item.stats
      let player2 := addEvent player1 "equip"
      .ok ⟨unequipEvents ++ [ev], player2, savePlayer w player2, rng⟩

/-- `handleInventory`: a read-only snapshot (narration payload kept to
names, slots, used count and capacity). -/
def handleInventory (w : World) (player : Player) (rng : List ℚ) :
    Except String TurnOut :=
  let slotName := fun (slot : String) =>
    match getAssoc player.equipment slot with
    | some it => it.name
    | none => "None"
  .ok ⟨[GEvent.inventoryList (player.inventory.map (·.name))
    (slotName "weapon") (slotName "head") (slotName "chest") (slotName "feet")
    (player.inventory.length : Int) (getInventoryCapacity player)], player, w, rng⟩

/-- `handleStats`: a read-only snapshot. -/
def handleStats (w : World) (player : Player) (rng : List ℚ) :
    Except String TurnOut :=
  .ok ⟨[GEvent.statsDisplay player.name player.level player.xp
    (xpToNextLevel player.level) player.hp player.maxHp player.stats player.skills
    (getPlayerAttack player) (getPlayerDefense player) player.statPointsAvailable],
    player, w, rng⟩

/-- `getRoomName` of `handleMap`: current room marker, abbreviated
7-character names for explored rooms, `[???]` otherwise. -/
def mapRoomName (playerLoc : String) (explored : List String) (nodeId : String) :
    String :=
  if nodeId == "" then "      "
  else if nodeId == playerLoc then "[*YOU*]"
  else if explored.contains nodeId then
    let nm := String.mk (nodeId.data.map (fun c => if c == '_' then ' ' else c))
    let nm := if 7 < nm.length then String.mk (nm.data.take 7) else nm
    "[" ++ (nm ++ String.mk (List.replicate (7 - nm.length) ' ')) ++ "]"
  else " [???] "

/-- `handleMap`: the hardcoded ASCII minimap over the seeded grid (the
source also builds an unused first draft of the rows; only the
`trueMapRows` layout it returns is embedded). The legacy
`!player.explored` backfill-and-save cannot fire here because the
embedding keeps `explored` always present. -/
def handleMap (w : World) (player : Player) (rng : List ℚ) :
    Except String TurnOut :=
  let g := mapRoomName player.location player.explored
  let trueMapRows := [
    "            " ++ g "server_room",
    "               | ",
    g "janitor_closet" ++ " - " ++ g "corridor_north" ++ " - " ++ g "safe_room_01",
    "               |              | ",
    "            " ++ g "ruined_market" ++ " - - - - - +",
    "               |              | ",
    g "parking_garage" ++ " - " ++ g "entrance_plaza" ++ " - " ++ g "collapsed_alley"
      ++ " -" ++ g "stairwell_east",
    "   |                                  | ",
    g "subway_entrance" ++ " - " ++ g "subway_platform" ++ "          "
      ++ g "maintenance_tunnel"]
  .ok ⟨[GEvent.mapDisplay ("\n" ++ String.intercalate "\n" trueMapRows)],
    player, w, rng⟩

/-- `handleAllocateStat`: requires an unspent point and a valid stat
name; recomputes `maxHp` from the updated constitution. -/
def handleAllocateStat (w : World) (player : Player) (intent : Intent)
    (rng : List ℚ) : Except String TurnOut :=
  if player.statPointsAvailable ≤ 0 then
    .ok ⟨[.error "No stat points available."], player, w, rng⟩
  else
    match allocateStatPoint player.stats (intent.target.getD "") with
    | none =>
      .ok ⟨[.error ("Invalid stat: " ++ optStr intent.target
        ++ ". Valid: str, dex, con, int, wis, cha")], player, w, rng⟩
    | some stats1 =>
      let player1 := { player with
        stats := stats1,
        statPointsAvailable := player.statPointsAvailable - 1,
        maxHp := calculateMaxHp player.level stats1.con }
      let ev := GEvent.statAllocated (optStr intent.target)
        (statGet stats1 (intent.target.getD "")) player1.statPointsAvailable
      .ok ⟨[ev], player1, savePlayer w player1, rng⟩

/-- `handleOpenLootbox`: find a lootbox by normalised substring, resolve
its tier's loot table (missing table errors), roll one item in, remove
the box, add tier XP and run the level-up loop. -/
def handleOpenLootbox (w : World) (player : Player) (intent : Intent)
    (rng : List ℚ) : Except String TurnOut :=
  let searchStr := normalizeSearch (intent.target.getD "")
  let idx? := player.inventory.findIdx? (fun i =>
    i.type == "lootbox" && (strContains (normalizeSearch i.name) searchStr
      || strContains (normalizeSearch i.itemId) searchStr))
  match idx? with
  | none =>
    .ok ⟨[.error ("No loot box \"" ++ optStr intent.target ++ "\" in inventory.")],
      player, w, rng⟩
  | some idx =>
    let box := (player.inventory.get? idx).getD emptyItem
    match w.getLootTable ("lootbox_" ++ box.tier) with
    | none =>
      .ok ⟨[.error ("Loot table for " ++ box.tier ++ " not found.")], player, w, rng⟩
    | some lootTable =>
      match rollLoot lootTable rng with
      | (none, _) =>
        .error "TypeError: cannot read itemId of undefined (empty loot table)"
      | (some lootItemId, rng1) =>
        let inv1 := player.inventory.eraseIdx idx
        let (openEvents, inv2) :=
          match w.getItem lootItemId with
          | some lootItem =>
            ([GEvent.lootboxOpened box.name box.tier lootItem.name lootItem.tier
                lootItem.type], inv1 ++ [lootItem])
          | none => ([], inv1)
        let lootboxXp := lootboxXpReward box.tier
        let player1 := { player with
          inventory := inv2,
          statisticsLootboxesOpened := player.statisticsLootboxesOpened + 1,
          xp := player.xp + lootboxXp }
        let xpEv := GEvent.lootboxXp lootboxXp box.tier player1.xp
        let (player2, levelUpEvents) := checkLevelUp player1
        let player3 := addEvent player2 "open_lootbox"
        .ok ⟨openEvents ++ [xpEv] ++ levelUpEvents, player3, savePlayer w player3, rng1⟩

/-- `handleTalk`'s entity search: exact id or case-insensitive name
substring, first match in room order. -/
def talkFind (w : World) (target : Option String) : List String → Option Entity
  | [] => none
  | eid :: rest =>
    match w.getEntity eid with
    | some e =>
      if target == some eid
          || strContains (toLowerStr e.name) (toLowerStr (target.getD "")) then some e
      else talkFind w target rest
    | none => talkFind w target rest

/-- `handleTalk`: one randomly chosen dialogue line, or the stock
blank-stare line (with the source's missing space after the period). -/
def handleTalk (w : World) (player : Player) (intent : Intent) (rng : List ℚ) :
    Except String TurnOut := do
  let node ← orThrow (w.getNode player.location)
    "TypeError: cannot read entities of null"
  match talkFind w intent.target node.entities with
  | none =>
    pure ⟨[.error ("Nobody named \"" ++ optStr intent.target
      ++ "\" here to talk to.")], player, w, rng⟩
  | some targetEntity =>
    if targetEntity.dialogue.isEmpty then
      pure ⟨[.talk targetEntity.name (targetEntity.name
        ++ " stares at you blankly.It doesn\x27t seem interested in conversation.")],
        player, w, rng⟩
    else
      let (u, rng1) := randDraw rng
      let i := (⌊u * (targetEntity.dialogue.length : ℚ)⌋).toNat
      let line := (targetEntity.dialogue.get? i).getD ""
      pure ⟨[.talk targetEntity.name line], player, w, rng1⟩

/-- `handleInspect`: inventory first, then the room, by the normalised
substring match; emits the whole found item. -/
def handleInspect (w : World) (player : Player) (intent : Intent) (rng : List ℚ) :
    Except String TurnOut :=
  match intent.target with
  | none => .ok ⟨[.error "Inspect what?"], player, w, rng⟩
  | some targetId =>
    let searchStr := normalizeSearch targetId
    let itemMatch := fun (i : Item) => strContains (normalizeSearch i.name) searchStr
      || strContains (normalizeSearch i.itemId) searchStr
    match player.inventory.find? itemMatch with
    | some it => .ok ⟨[.itemInspected it], player, w, rng⟩
    | none => do
      let node ← orThrow (w.getNode player.location)
        "TypeError: cannot read items of null"
      let roomItem := node.items.findSome? (fun iid =>
        match w.getItem iid with
        | some ri => if itemMatch ri then some ri else none
        | none => none)
      match roomItem with
      | some it => pure ⟨[.itemInspected it], player, w, rng⟩
      | none =>
        pure ⟨[.error ("No item matching \"" ++ targetId
          ++ "\" found in inventory or room.")], player, w, rng⟩

/-- The hostile filter of `handleFlee`: living entities that are not
merchants or tutorial guides, in room order. -/
def hostileEntitiesOf (w : World) (node : Node) : List Entity :=
  node.entities.filterMap (fun eid =>
    match w.getEntity eid with
    | some e =>
      if 0 < e.hp && e.entityClass != "Merchant" && e.entityClass != "TutorialGuide"
      then some e else none
    | none => none)

/-- `handleFlee`: needs a hostile and an exit; a flee skill check at
base difficulty 70. Success relocates through a uniformly chosen exit
and re-emits the look; failure takes one retaliation attack from the
first hostile. -/
def handleFlee (w : World) (player : Player) (rng : List ℚ) :
    Except String TurnOut := do
  let node ← orThrow (w.getNode player.location)
    "TypeError: cannot read entities of null"
  match hostileEntitiesOf w node with
  | [] =>
    pure ⟨[.error "Nothing to flee from. You can just walk out."], player, w, rng⟩
  | attacker :: _ =>
    let exits := exitsOf node
    if exits.isEmpty then
      pure ⟨[.error "No exits! You\x27re trapped."], player, w, rng⟩
    else
      let fleeLevel := getSkillLevel player "flee"
      let (check, rng1) := rollSkillCheck fleeLevel player.stats.dex 70 rng
      let checkEv := GEvent.skillCheck "Flee"
        (if check.success then "success" else "fail") check.roll check.threshold
        (if check.success then "You break free and sprint for the exit!"
          else "You stumble! The enemies close in...")
      if check.success then
        let (lvlUp, rng2) := checkSkillLevelUp fleeLevel rng1
        let (lvlEvents, player1) :=
          if lvlUp then
            let b := bumpSkill player "flee"
            ([GEvent.skillLevelUp "Flee" (getSkillLevel b "flee")], b)
          else ([], player)
        let (u, rng3) := randDraw rng2
        let pick ← orThrow (exits.get? ((⌊u * (exits.length : ℚ)⌋).toNat))
          "TypeError: cannot destructure undefined (exit index out of range)"
        let (direction, targetNodeId) := pick
        match w.getNode targetNodeId with
        | some newNode =>
          let player2 := { player1 with
            location := targetNodeId,
            explored := if player1.explored.contains targetNodeId then player1.explored
              else player1.explored ++ [targetNodeId] }
          let moveEv := GEvent.moveEv node.nodeId targetNodeId direction
            (some "Fled in a panic!")
          let lookEvents := buildLookEvents w newNode
          let player3 := addEvent player2 "flee"
          pure ⟨[checkEv] ++ lvlEvents ++ [moveEv] ++ lookEvents, player3,
            savePlayer w player3, rng3⟩
        | none =>
          let player3 := addEvent player1 "flee"
          pure ⟨[checkEv] ++ lvlEvents, player3, savePlayer w player3, rng3⟩
      else
        let a := resolveEnemyAttack player attacker rng1
        let player1 := if a.playerDead then { a.player with alive := false } else a.player
        let player2 := addEvent player1 "flee"
        pure ⟨[checkEv] ++ a.events, player2, savePlayer w player2, a.rng⟩

/-- The per-entity loop of the mob aggro pass: skip the entity the
player attacked this turn, the dead, the missing and the passive
classes; each remaining hostile attacks once; the loop stops the moment
the player dies. The Bool is `playerWasAttacked`. -/
def aggroLoop (w : World) (targeted : Option String) :
    List String → Player → List ℚ → List GEvent × Player × List ℚ × Bool
  | [], player, rng => ([], player, rng, false)
  | eid :: rest, player, rng =>
    if targeted == some eid then aggroLoop w targeted rest player rng
    else
      match w.getEntity eid with
      | none => aggroLoop w targeted rest player rng
      | some entity =>
        if entity.hp ≤ 0 then aggroLoop w targeted rest player rng
        else if entity.entityClass == "Merchant"
            || entity.entityClass == "TutorialGuide" then
          aggroLoop w targeted rest player rng
        else
          let a := resolveEnemyAttack player entity rng
          if a.playerDead then
            (a.events, { a.player with alive := false }, a.rng, true)
          else
            let (evs2, player2, rng2, _) := aggroLoop w targeted rest a.player a.rng
            (a.events ++ evs2, player2, rng2, true)

/-- The post-turn mob aggro tick of `processAction`: runs after any
non-move action while the player is alive; the exemption for the entity
already fought is recovered from the `player_attack` event's target id;
a single save covers all aggro damage. -/
def mobAggroTick (t : TurnOut) (action : String) : TurnOut :=
  if t.player.alive && action != "move" then
    match t.world.getNode t.player.location with
    | some currentNode =>
      if currentNode.entities.isEmpty then t
      else
        let targeted := (t.events.find? (fun e => e.typeTag == "player_attack")).bind
          GEvent.attackTargetId
        let (evs, player1, rng1, attacked) :=
          aggroLoop t.world targeted currentNode.entities t.player t.rng
        let w1 := if attacked then savePlayer t.world player1 else t.world
        ⟨t.events ++ evs, player1, w1, rng1⟩
    | none => t
  else t

/-- The dispatch table of `processAction`. -/
def dispatchAction (w : World) (player : Player) (intent : Intent) (rng : List ℚ) :
    Except String TurnOut :=
  if intent.action == "move" then handleMove w player intent rng
  else if intent.action == "look" then handleLook w player rng
  else if intent.action == "attack" then handleAttack w player intent rng
  else if intent.action == "pickup" then handlePickup w player intent rng
  else if intent.action == "use" then handleUse w player intent rng
  else if intent.action == "equip" then handleEquip w player intent rng
  else if intent.action == "inventory" then handleInventory w player rng
  else if intent.action == "stats" then handleStats w player rng
  else if intent.action == "map" then handleMap w player rng
  else if intent.action == "allocate" then handleAllocateStat w player intent rng
  else if intent.action == "open" then handleOpenLootbox w player intent rng
  else if intent.action == "inspect" then handleInspect w player intent rng
  else if intent.action == "talk" then handleTalk w player intent rng
  else if intent.action == "flee" then handleFlee w player rng
  else if intent.action == "unknown" then
    .ok ⟨[.unknownAction intent.text], player, w, rng⟩
  else
    .ok ⟨[.error ("Unknown action: \"" ++ intent.action
      ++ "\". Try: move, look, attack, pickup, use, equip, inventory, stats, map, talk.")],
      player, w, rng⟩

/-- `processAction(playerId, intent)`: load the player (not-found and
already-dead are terminal error events), dispatch, then run the mob
aggro tick. The legacy `statistics`/`skills` backfills are identities
here because the embedded `Player` carries both fields. -/
def processAction (w : World) (playerId : String) (intent : Intent) (rng : List ℚ) :
    Except String ProcOut := do
  match w.getPlayer playerId with
  | none => pure ⟨[.error "Player not found."], none, w, rng⟩
  | some player =>
    if !player.alive then
      pure ⟨[.error "You are dead. Your journey has ended."], some player, w, rng⟩
    else
      let t0 ← dispatchAction w player intent rng
      let t := mobAggroTick t0 intent.action
      pure ⟨t.events, some t.player, t.world, t.rng⟩

/-- A concrete player used by the witnesses below. -/
def samplePlayer : Player :=
  { id := "p1", name := "Crawler", level := 1, xp := 0,
    stats := ⟨10, 10, 10, 10, 10, 10⟩, skills := [("dodge", 1), ("flee", 1)],
    hp := 75, maxHp := 75, location := "entrance_plaza",
    inventory := [], equipment := [] }

/-- Items for the equip-swap witness. -/
def axeItem : Item :=
  { itemId := "axe", name := "Axe", type := "weapon", tier := "iron",
    stats := { attack := 4 } }

def swordItem : Item :=
  { itemId := "sword", name := "Sword", type := "weapon", tier := "iron",
    stats := { attack := 3 }, slot := some "weapon" }

/-- A player holding a sword with an axe in the inventory. -/
def equipPlayer : Player :=
  { samplePlayer with inventory := [axeItem], equipment := [("weapon", swordItem)] }

/-- The turn `handleEquip` produces on `equipPlayer` equipping the axe. -/
def rEquip : TurnOut :=
  match handleEquip {} equipPlayer { action := "equip", target := some "axe" } [] with
  | .ok t => t
  | .error _ => ⟨[], equipPlayer, {}, []⟩

/-- Concrete world for the C1 counterexample: a dead skeleton and a
live goblin share the room. -/
def cexSkeleton : Entity :=
  { entityId := "skeleton", name := "Skeleton", entityClass := "Undead",
    hp := 0, maxHp := 10, attack := 2, defense := 0 }

def cexGoblin : Entity :=
  { entityId := "goblin", name := "Goblin", entityClass := "Beast",
    hp := 5, maxHp := 5, attack := 4, defense := 1, xpReward := 10 }

def cexCrypt : Node :=
  { nodeId := "crypt", connections := [("north", some "hall")],
    entities := ["skeleton", "goblin"] }

def cexAttackPlayer : Player := { samplePlayer with location := "crypt", hp := 30 }

def cexAttackWorld : World :=
  { players := [("p1", cexAttackPlayer)], nodes := [("crypt", cexCrypt)],
    entities := [("skeleton", cexSkeleton), ("goblin", cexGoblin)] }

/-- The handler's reply before the aggro tick. -/
def tAttackDead : TurnOut :=
  ⟨[.error "skeleton is already dead."], cexAttackPlayer, cexAttackWorld, [0]⟩

/-- Recogniser for `entity_attack` events. -/
def isEntityAttack : GEvent → Bool
  | .entityAttack _ _ _ _ => true
  | _ => false

/-- Concrete world for the C4 counterexample and witness: one goblin,
one exit. -/
def fleeGoblin : Entity :=
  { entityId := "goblin", name := "Goblin", entityClass := "Beast",
    hp := 5, maxHp := 5, attack := 4, defense := 1, xpReward := 10 }

def fleeDen : Node :=
  { nodeId := "den", connections := [("north", some "hall")],
    entities := ["goblin"] }

def fleePlayer : Player := { samplePlayer with location := "den", hp := 30 }

def fleeWorld : World :=
  { players := [("p1", fleePlayer)], nodes := [("den", fleeDen)],
    entities := [("goblin", fleeGoblin)] }

/-- The player after the failed flee and the goblin's retaliation. -/
def fleePlayer26 : Player := { fleePlayer with hp := 26, eventLog := ["flee"] }

/-- The player after the aggro pass hits once more. -/
def fleePlayer22 : Player := { fleePlayer with hp := 22, eventLog := ["flee"] }

/-- The flee handler's reply before the aggro tick. -/
def tFleeFail : TurnOut :=
  ⟨[.skillCheck "Flee" "fail" 1 65 "You stumble! The enemies close in...",
    .entityAttack 4 "Goblin" 26 75], fleePlayer26, savePlayer fleeWorld fleePlayer26,
    [0]⟩

/-- Derived-state well-formedness of a player document: hp within
bounds, `maxHp` consistent with level and constitution (every code
path that writes `maxHp` recomputes exactly this), and no reachable
negative heal amount. -/
def PlayerWf (p : Player) : Prop :=
  0 ≤ p.hp ∧ p.hp ≤ p.maxHp
  ∧ p.maxHp = calculateMaxHp p.level p.stats.con
  ∧ (∀ it ∈ p.inventory, 0 ≤ it.stats.healAmount)
  ∧ (∀ kv ∈ p.equipment, 0 ≤ kv.2.stats.healAmount)

/-- Well-formedness of the store: item documents carry no negative
heal amount and stored players are well-formed. -/
def WorldWf (w : World) : Prop :=
  (∀ kv ∈ w.items, 0 ≤ kv.2.stats.healAmount)
  ∧ (∀ kv ∈ w.players, PlayerWf kv.2)

/-- The contract of `Math.random()`: every draw lies in [0, 1). -/
def RngWf (rng : List ℚ) : Prop := ∀ u ∈ rng, 0 ≤ u ∧ u < 1

def c9Axe : Item :=
  { itemId := "c9_axe", name := "Greataxe", type := "weapon", tier := "iron",
    stats := { attack := 4 } }

/-- A player whose stored `maxHp` (100) exceeds what the formula gives
for level 1, con 10 (75); hp is at the stored maximum. -/
def c9Player : Player :=
  { id := "p9", name := "Lurker", level := 1, xp := 0,
    stats := ⟨10, 10, 10, 10, 10, 10⟩, skills := [],
    hp := 100, maxHp := 100, location := "nowhere",
    inventory := [c9Axe], equipment := [] }

def c9World : World := { players := [("p9", c9Player)] }

/-- The turn `processAction` produces when `c9Player` equips the axe. -/
def tC9 : ProcOut :=
  match processAction c9World "p9"
      { action := "equip", target := some "c9_axe" } [] with
  | .ok o => o
  | .error _ => ⟨[], none, c9World, []⟩

/-- A player whose stored document is consistent with the formulas. -/
def c9WfPlayer : Player :=
  { id := "p9w", name := "Sound", level := 1, xp := 0,
    stats := ⟨10, 10, 10, 10, 10, 10⟩, skills := [],
    hp := 75, maxHp := 75, location := "nowhere",
    inventory := [], equipment := [] }

def c9WfWorld : World := { players := [("p9w", c9WfPlayer)] }

/-- The turn `processAction` produces for a `stats` action on the
consistent store. -/
def tC9w : ProcOut :=
  match processAction c9WfWorld "p9w" { action := "stats" } [] with
  | .ok o => o
  | .error _ => ⟨[], none, c9WfWorld, []⟩

def qC9w : Player := (tC9w.player).getD c9WfPlayer

/- ==================================================================
   Theorems
   ================================================================== -/

/-- The engine's integer halving is the mathematical floor of the
rational division the source writes with `Math.floor`. -/
lemma getModifier_eq_floor (statValue : Int) :
    getModifier statValue = ⌊(((statValue : ℚ) - 10) / 2)⌋ := by
  have h := Rat.floor_intCast_div_natCast (statValue - 10) 2
  push_cast at h
  rw [getModifier]
  exact h.symm

/-- C3: for all integer inputs, `calculateDamage` equals
`max(1, weaponAttack + floor((attackerStr-10)/2) - targetDefense)` and
is therefore always at least 1. -/
theorem calculateDamage_spec (weaponAttack attackerStr targetDefense : Int) :
    calculateDamage weaponAttack attackerStr targetDefense
      = max 1 (weaponAttack + ⌊(((attackerStr : ℚ) - 10) / 2)⌋ - targetDefense)
    ∧ 1 ≤ calculateDamage weaponAttack attackerStr targetDefense := by
  constructor
  · rw [calculateDamage, ← getModifier_eq_floor]
  · exact le_max_left _ _

/-- C5: the skill-check threshold is the clamp of
`baseDifficulty - 5*skillLevel - 3*getModifier(stat)` into [5, 95] for
all inputs; a genuine draw yields a roll in [1, 100]; success is exactly
`roll >= threshold`; and whatever the inputs, a roll from `u = 0` fails
while a roll from `u = 99/100` succeeds — no check is certain. -/
theorem rollSkillCheck_spec (skillLevel statValue baseDifficulty : Int) (u : ℚ)
    (rest : List ℚ) (hu0 : 0 ≤ u) (hu1 : u < 1) :
    ((rollSkillCheck skillLevel statValue baseDifficulty (u :: rest)).1.threshold
      = max 5 (min 95 (baseDifficulty - 5 * skillLevel - 3 * getModifier statValue)))
    ∧ 5 ≤ (rollSkillCheck skillLevel statValue baseDifficulty (u :: rest)).1.threshold
    ∧ (rollSkillCheck skillLevel statValue baseDifficulty (u :: rest)).1.threshold ≤ 95
    ∧ 1 ≤ (rollSkillCheck skillLevel statValue baseDifficulty (u :: rest)).1.roll
    ∧ (rollSkillCheck skillLevel statValue baseDifficulty (u :: rest)).1.roll ≤ 100
    ∧ ((rollSkillCheck skillLevel statValue baseDifficulty (u :: rest)).1.success = true
        ↔ (rollSkillCheck skillLevel statValue baseDifficulty (u :: rest)).1.threshold
          ≤ (rollSkillCheck skillLevel statValue baseDifficulty (u :: rest)).1.roll)
    ∧ (rollSkillCheck skillLevel statValue baseDifficulty ((0 : ℚ) :: rest)).1.success = false
    ∧ (rollSkillCheck skillLevel statValue baseDifficulty ((99/100 : ℚ) :: rest)).1.success
        = true := by
  have hfloor0 : (0 : Int) ≤ ⌊u * 100⌋ := by
    apply Int.floor_nonneg.mpr
    positivity
  have hfloor1 : ⌊u * 100⌋ < 100 := by
    apply Int.floor_lt.mpr
    push_cast
    nlinarith
  have hth : ∀ x : Int, 5 ≤ max 5 (min 95 x) ∧ max 5 (min 95 x) ≤ 95 := by
    intro x
    constructor
    · exact le_max_left _ _
    · exact max_le (by norm_num) (min_le_left _ _)
  refine ⟨?_, ?_, ?_, ?_, ?_, ?_, ?_, ?_⟩
  · simp only [rollSkillCheck, randDraw]
    ring_nf
  · simp only [rollSkillCheck, randDraw]
    exact (hth _).1
  · simp only [rollSkillCheck, randDraw]
    exact (hth _).2
  · simp only [rollSkillCheck, randDraw, List.headD]
    omega
  · simp only [rollSkillCheck, randDraw, List.headD]
    omega
  · simp [rollSkillCheck, randDraw]
  · simp only [rollSkillCheck, randDraw, List.headD, decide_eq_false_iff_not, not_le]
    norm_num
  · simp only [rollSkillCheck, randDraw, List.headD, decide_eq_true_eq]
    have h95 : max 5 (min 95 (baseDifficulty - skillLevel * 5 - getModifier statValue * 3)) ≤ 95 :=
      max_le (by norm_num) (min_le_left _ _)
    have : (⌊(99/100 : ℚ) * 100⌋ : Int) = 99 := by norm_num
    omega

/-- Witness for `rollSkillCheck_spec` at concrete inputs. -/
theorem rollSkillCheck_spec_witness :
    (0 ≤ (0 : ℚ)) ∧ ((0 : ℚ) < 1)
    ∧ 5 ≤ (rollSkillCheck 1 10 70 ((0 : ℚ) :: [])).1.threshold :=
  ⟨by simp, by simp, (rollSkillCheck_spec 1 10 70 0 [] (by simp) (by simp)).2.1⟩

/-- A nonempty list has a last element, and it is a member. -/
lemma getLast?_is_mem {α : Type} (l : List α) (h : l ≠ []) :
    ∃ x ∈ l, l.getLast? = some x := by
  induction l with
  | nil => exact absurd rfl h
  | cons a t ih =>
    cases t with
    | nil => exact ⟨a, List.mem_singleton_self a, rfl⟩
    | cons b t' =>
      obtain ⟨x, hx, hlast⟩ := ih (by simp)
      exact ⟨x, List.mem_cons_of_mem a hx, by simpa using hlast⟩

/-- The cumulative-subtraction scan of `rollLoot` only ever returns the
itemId of a member of the table. -/
lemma rollLootScan_mem (roll : ℚ) (l : List LootEntry) (x : String)
    (h : rollLootScan roll l = some x) : ∃ e ∈ l, e.itemId = x := by
  induction l generalizing roll with
  | nil => simp [rollLootScan] at h
  | cons e t ih =>
    rw [rollLootScan] at h
    by_cases hc : roll - e.weight ≤ 0
    · simp [hc] at h
      exact ⟨e, List.mem_cons_self e t, h⟩
    · simp [hc] at h
      obtain ⟨f, hf, hfx⟩ := ih (roll - e.weight) h
      exact ⟨f, List.mem_cons_of_mem e hf, hfx⟩

/-- The cumulative-subtraction scan of `rollRandomItemByRarity` only
ever returns the itemId of a member of the list. -/
lemma rollRarityScan_mem (roll : ℚ) (l : List Item) (x : String)
    (h : rollRarityScan roll l = some x) : ∃ it ∈ l, it.itemId = x := by
  induction l generalizing roll with
  | nil => simp [rollRarityScan] at h
  | cons e t ih =>
    rw [rollRarityScan] at h
    by_cases hc : roll - rarityOrDefault e.rarity ≤ 0
    · simp [hc] at h
      exact ⟨e, List.mem_cons_self e t, h⟩
    · simp [hc] at h
      obtain ⟨f, hf, hfx⟩ := ih (roll - rarityOrDefault e.rarity) h
      exact ⟨f, List.mem_cons_of_mem e hf, hfx⟩

/-- C6: on any nonempty loot table / item list and for every value of
the random draw, `rollLoot` and `rollRandomItemByRarity` return the
itemId of some entry of their input (never none): the scan picks the
first entry driving the remainder to `<= 0` and the last entry is the
deterministic fallback. -/
theorem weightedRollers_return_member (lootTable : LootTable) (items : List Item)
    (rngA rngB : List ℚ) (h1 : lootTable.items ≠ []) (h2 : items ≠ []) :
    (∃ e ∈ lootTable.items, (rollLoot lootTable rngA).1 = some e.itemId)
    ∧ (∃ it ∈ items, (rollRandomItemByRarity items rngB).1 = some it.itemId) := by
  constructor
  · rcases hscan : rollLootScan ((rngA.head?.getD 0) * ((lootTable.items.map (·.weight)).sum))
        lootTable.items with _ | x
    · obtain ⟨e, he, hlast⟩ := getLast?_is_mem lootTable.items h1
      refine ⟨e, he, ?_⟩
      simp [rollLoot, randDraw, hscan, hlast]
    · obtain ⟨e, he, hex⟩ := rollLootScan_mem _ _ _ hscan
      refine ⟨e, he, ?_⟩
      simp [rollLoot, randDraw, hscan, hex]
  · rcases hscan : rollRarityScan
        ((rngB.head?.getD 0) * ((items.map (fun it => rarityOrDefault it.rarity)).sum))
        items with _ | x
    · obtain ⟨it, hit, hlast⟩ := getLast?_is_mem items h2
      refine ⟨it, hit, ?_⟩
      simp [rollRandomItemByRarity, randDraw, h2, hscan, hlast]
    · obtain ⟨it, hit, hix⟩ := rollRarityScan_mem _ _ _ hscan
      refine ⟨it, hit, ?_⟩
      simp [rollRandomItemByRarity, randDraw, h2, hscan, hix]

/-- Witness for `weightedRollers_return_member` on a two-entry table and
a one-item list. -/
theorem weightedRollers_return_member_witness :
    (({ items := [⟨"knife", 3⟩, ⟨"rag", 1⟩] } : LootTable).items ≠ [])
    ∧ (([({ itemId := "coin", name := "Coin", type := "misc", tier := "iron" } : Item)]) ≠ [])
    ∧ (∃ e ∈ ({ items := [⟨"knife", 3⟩, ⟨"rag", 1⟩] } : LootTable).items,
        (rollLoot { items := [⟨"knife", 3⟩, ⟨"rag", 1⟩] } []).1 = some e.itemId) := by
  refine ⟨by simp, by simp, ?_⟩
  exact (weightedRollers_return_member { items := [⟨"knife", 3⟩, ⟨"rag", 1⟩] }
    [{ itemId := "coin", name := "Coin", type := "misc", tier := "iron" }]
    [] [] (by simp) (by simp)).1

/-- C7: `calculateHazardDamage` at `hazardLevel <= 0` returns 0 and
leaves the random stream untouched; at `hazardLevel >= 1` it consumes
exactly one draw and returns `hazardLevel` times a d6 value in [1, 6],
so the damage lies in `[hazardLevel, hazardLevel * 6]`. -/
theorem calculateHazardDamage_spec (hazardLevel : Int) (u : ℚ) (rest rngZ : List ℚ)
    (hu0 : 0 ≤ u) (hu1 : u < 1) :
    (hazardLevel ≤ 0 → calculateHazardDamage hazardLevel rngZ = (0, rngZ))
    ∧ (1 ≤ hazardLevel →
        (calculateHazardDamage hazardLevel (u :: rest)).2 = rest
        ∧ (calculateHazardDamage hazardLevel (u :: rest)).1
            = hazardLevel * (⌊u * 6⌋ + 1)
        ∧ 1 ≤ ⌊u * 6⌋ + 1 ∧ ⌊u * 6⌋ + 1 ≤ 6
        ∧ hazardLevel ≤ (calculateHazardDamage hazardLevel (u :: rest)).1
        ∧ (calculateHazardDamage hazardLevel (u :: rest)).1 ≤ hazardLevel * 6) := by
  have hf0 : (0 : Int) ≤ ⌊u * 6⌋ := by
    apply Int.floor_nonneg.mpr
    positivity
  have hf1 : ⌊u * 6⌋ < 6 := by
    apply Int.floor_lt.mpr
    push_cast
    nlinarith
  constructor
  · intro hle
    simp [calculateHazardDamage, hle]
  · intro hge
    have hnot : ¬ hazardLevel ≤ 0 := by omega
    refine ⟨by simp [calculateHazardDamage, hnot, randDraw],
      by simp [calculateHazardDamage, hnot, randDraw], by omega, by omega, ?_, ?_⟩
    · simp only [calculateHazardDamage, hnot, if_false, randDraw, List.headD]
      nlinarith
    · simp only [calculateHazardDamage, hnot, if_false, randDraw, List.headD]
      nlinarith

/-- Witness for `calculateHazardDamage_spec` at level 2 with draw 0. -/
theorem calculateHazardDamage_spec_witness :
    (0 ≤ (0 : ℚ)) ∧ ((0 : ℚ) < 1) ∧ (1 ≤ (2 : Int))
    ∧ 2 ≤ (calculateHazardDamage 2 ((0 : ℚ) :: [])).1
    ∧ (calculateHazardDamage 2 ((0 : ℚ) :: [])).1 ≤ 2 * 6 := by
  have h := (calculateHazardDamage_spec 2 0 [] [] (by simp) (by simp)).2 (by decide)
  exact ⟨by simp, by simp, by decide, h.2.2.2.2.1, h.2.2.2.2.2⟩

/-- The complete characterisation of the `checkLevelUp` while-loop for
a well-formed progression state (`xp >= 0`, `level >= 1`): the level
only grows, the final xp is the initial xp minus the sum of the
thresholds of every level passed (the remainder is carried), the final
xp is non-negative and below the next threshold, stat points grow by
the fixed award per level gained, stats are untouched, any gained level
leaves `hp = maxHp` recomputed at the final level, and one `level_up`
event is emitted per level gained. -/
lemma checkLevelUp_core : ∀ (n : Nat) (p : Player), p.xp.toNat = n → 0 ≤ p.xp →
    1 ≤ p.level →
    p.level ≤ (checkLevelUp p).1.level
    ∧ 0 ≤ (checkLevelUp p).1.xp
    ∧ (checkLevelUp p).1.xp < xpToNextLevel (checkLevelUp p).1.level
    ∧ (checkLevelUp p).1.xp = p.xp
        - 50 * ((checkLevelUp p).1.level - p.level)
          * (p.level + (checkLevelUp p).1.level - 1)
    ∧ (checkLevelUp p).1.statPointsAvailable = p.statPointsAvailable
        + STAT_POINTS_PER_LEVEL * ((checkLevelUp p).1.level - p.level)
    ∧ (checkLevelUp p).1.stats = p.stats
    ∧ (p.level < (checkLevelUp p).1.level →
        (checkLevelUp p).1.hp = (checkLevelUp p).1.maxHp
        ∧ (checkLevelUp p).1.maxHp
            = calculateMaxHp (checkLevelUp p).1.level p.stats.con)
    ∧ (p.level = (checkLevelUp p).1.level → (checkLevelUp p).1 = p)
    ∧ (checkLevelUp p).2.length = ((checkLevelUp p).1.level - p.level).toNat := by
  intro n
  induction n using Nat.strong_induction_on with
  | _ n ih =>
    intro p hn h0 h1
    by_cases hc : xpToNextLevel p.level ≤ p.xp
    · have hthr : (100 : Int) ≤ xpToNextLevel p.level := by
        simp only [xpToNextLevel]
        nlinarith
      have hq0 : 0 ≤ (levelUpStep p).xp := by
        simp only [levelUpStep]
        omega
      have hq1 : 1 ≤ (levelUpStep p).level := by
        simp only [levelUpStep]
        omega
      have hdec : (levelUpStep p).xp.toNat < n := by
        simp only [levelUpStep]
        omega
      obtain ⟨ha, hb, hcw, hd, he, hf, hg, hh, hi⟩ :=
        ih _ hdec (levelUpStep p) rfl hq0 hq1
      have hunfold : checkLevelUp p
          = ((checkLevelUp (levelUpStep p)).1,
            GEvent.levelUp (levelUpStep p).level
                (levelUpStep p).statPointsAvailable (levelUpStep p).maxHp
              :: (checkLevelUp (levelUpStep p)).2) := by
        rw [checkLevelUp, if_pos hc]
      rw [hunfold]
      dsimp only
      have hlvl : (levelUpStep p).level = p.level + 1 := rfl
      have hxpq : (levelUpStep p).xp = p.xp - xpToNextLevel p.level := rfl
      have hspq : (levelUpStep p).statPointsAvailable
          = p.statPointsAvailable + STAT_POINTS_PER_LEVEL := rfl
      have hstq : (levelUpStep p).stats = p.stats := rfl
      refine ⟨by omega, hb, hcw, ?_, ?_, by rw [hf, hstq], ?_, by omega, ?_⟩
      · rw [hd, hxpq, hlvl]
        simp only [xpToNextLevel]
        ring_nf
      · rw [he, hspq, hlvl]
        ring_nf
      · intro _
        rcases lt_or_eq_of_le ha with hlt | heq
        · obtain ⟨h7a, h7b⟩ := hg hlt
          exact ⟨h7a, by rw [h7b, hstq]⟩
        · have hqeq := hh heq
          rw [hqeq]
          exact ⟨rfl, rfl⟩
      · simp only [List.length_cons, hi, hlvl]
        omega
    · have hunfold : checkLevelUp p = (p, []) := by
        rw [checkLevelUp, if_neg hc]
      rw [hunfold]
      dsimp only
      push_neg at hc
      exact ⟨le_refl _, h0, hc, by ring_nf, by ring_nf, rfl, by omega, fun _ => rfl, by simp⟩

/-- C2: for every player with non-negative xp and level at least 1, the
level-up loop carries remainder XP (the final xp is the initial xp
minus the sum `50*(gained)*(start+final-1)` of every `100*level`
threshold passed), keeps xp in `[0, xpToNextLevel(final level))`,
grants the fixed STAT_POINTS_PER_LEVEL award per level gained and on
any gain leaves `hp = maxHp` recomputed at the final level; in
particular a level-1 player whose 95 xp just grew by 10 ends at level
2, xp 5, award +2, fully healed. -/
theorem checkLevelUp_spec (p : Player) (h0 : 0 ≤ p.xp) (h1 : 1 ≤ p.level) :
    ((checkLevelUp p).1.xp = p.xp
        - 50 * ((checkLevelUp p).1.level - p.level)
          * (p.level + (checkLevelUp p).1.level - 1))
    ∧ 0 ≤ (checkLevelUp p).1.xp
    ∧ (checkLevelUp p).1.xp < xpToNextLevel (checkLevelUp p).1.level
    ∧ (checkLevelUp p).1.statPointsAvailable = p.statPointsAvailable
        + STAT_POINTS_PER_LEVEL * ((checkLevelUp p).1.level - p.level)
    ∧ (p.level < (checkLevelUp p).1.level →
        (checkLevelUp p).1.hp = (checkLevelUp p).1.maxHp
        ∧ (checkLevelUp p).1.maxHp
            = calculateMaxHp (checkLevelUp p).1.level p.stats.con)
    ∧ (p.level = 1 → p.xp = 95 + 10 →
        (checkLevelUp p).1.level = 2 ∧ (checkLevelUp p).1.xp = 5
        ∧ (checkLevelUp p).1.statPointsAvailable
            = p.statPointsAvailable + STAT_POINTS_PER_LEVEL
        ∧ (checkLevelUp p).1.hp = (checkLevelUp p).1.maxHp
        ∧ (checkLevelUp p).1.maxHp = calculateMaxHp 2 p.stats.con) := by
  obtain ⟨ha, hb, hcw, hd, he, hf, hg, hh, hi⟩ :=
    checkLevelUp_core p.xp.toNat p rfl h0 h1
  refine ⟨hd, hb, hcw, he, hg, ?_⟩
  intro hL hX
  have hstep1 : checkLevelUp p
      = ((checkLevelUp (levelUpStep p)).1,
        GEvent.levelUp (levelUpStep p).level
            (levelUpStep p).statPointsAvailable (levelUpStep p).maxHp
          :: (checkLevelUp (levelUpStep p)).2) := by
    rw [checkLevelUp, if_pos]
    rw [xpToNextLevel, hL, hX]
    norm_num
  have hq : (levelUpStep p).xp = 5 ∧ (levelUpStep p).level = 2 := by
    constructor
    · show p.xp - xpToNextLevel p.level = 5
      rw [hX, xpToNextLevel, hL]
      norm_num
    · show p.level + 1 = 2
      omega
  have hstep2 : checkLevelUp (levelUpStep p) = (levelUpStep p, []) := by
    rw [checkLevelUp, if_neg]
    rw [xpToNextLevel, hq.1, hq.2]
    norm_num
  rw [hstep1]
  dsimp only
  rw [hstep2]
  dsimp only
  refine ⟨hq.2, hq.1, ?_, rfl, ?_⟩
  · show p.statPointsAvailable + STAT_POINTS_PER_LEVEL
      = p.statPointsAvailable + STAT_POINTS_PER_LEVEL
    rfl
  · show calculateMaxHp (p.level + 1) p.stats.con = calculateMaxHp 2 p.stats.con
    rw [hL]
    norm_num

/-- Witness for `checkLevelUp_spec` on a level-1 player with 105 xp. -/
theorem checkLevelUp_spec_witness :
    0 ≤ ({ samplePlayer with xp := 105 } : Player).xp
    ∧ 1 ≤ ({ samplePlayer with xp := 105 } : Player).level
    ∧ ((checkLevelUp { samplePlayer with xp := 105 }).1.level = 2
        ∧ (checkLevelUp { samplePlayer with xp := 105 }).1.xp = 5
        ∧ (checkLevelUp { samplePlayer with xp := 105 }).1.statPointsAvailable
            = ({ samplePlayer with xp := 105 } : Player).statPointsAvailable
              + STAT_POINTS_PER_LEVEL
        ∧ (checkLevelUp { samplePlayer with xp := 105 }).1.hp
            = (checkLevelUp { samplePlayer with xp := 105 }).1.maxHp
        ∧ (checkLevelUp { samplePlayer with xp := 105 }).1.maxHp
            = calculateMaxHp 2 ({ samplePlayer with xp := 105 } : Player).stats.con) :=
  ⟨by decide, by decide,
    (checkLevelUp_spec { samplePlayer with xp := 105 } (by decide) (by decide)).2.2.2.2.2
      (by decide) (by decide)⟩

/-- C10: the level-up loop terminates with a finite event list — one
`level_up` event per level gained — the final xp stays non-negative,
and the number of levels gained in one call is bounded by `xp / 100`. -/
theorem checkLevelUp_terminates_bounded (p : Player) (h0 : 0 ≤ p.xp)
    (h1 : 1 ≤ p.level) :
    0 ≤ (checkLevelUp p).1.xp
    ∧ p.level ≤ (checkLevelUp p).1.level
    ∧ (checkLevelUp p).1.level - p.level ≤ p.xp / 100
    ∧ (checkLevelUp p).2.length = ((checkLevelUp p).1.level - p.level).toNat := by
  obtain ⟨ha, hb, hcw, hd, he, hf, hg, hh, hi⟩ :=
    checkLevelUp_core p.xp.toNat p rfl h0 h1
  refine ⟨hb, ha, ?_, hi⟩
  have hsum : 50 * ((checkLevelUp p).1.level - p.level)
      * (p.level + (checkLevelUp p).1.level - 1) ≤ p.xp := by omega
  have h100 : 100 * ((checkLevelUp p).1.level - p.level)
      ≤ 50 * ((checkLevelUp p).1.level - p.level)
        * (p.level + (checkLevelUp p).1.level - 1) := by
    rcases eq_or_lt_of_le ha with h | h
    · rw [← h]
      simp
    · have hm1 : 1 ≤ (checkLevelUp p).1.level - p.level := by omega
      have hs2 : 2 ≤ p.level + (checkLevelUp p).1.level - 1 := by omega
      nlinarith
  omega

/-- Witness for `checkLevelUp_terminates_bounded` at 105 xp: exactly one
level gained, within the `105 / 100 = 1` bound. -/
theorem checkLevelUp_terminates_bounded_witness :
    0 ≤ ({ samplePlayer with xp := 105 } : Player).xp
    ∧ 1 ≤ ({ samplePlayer with xp := 105 } : Player).level
    ∧ (checkLevelUp { samplePlayer with xp := 105 }).1.level
        - ({ samplePlayer with xp := 105 } : Player).level
        ≤ ({ samplePlayer with xp := 105 } : Player).xp / 100 :=
  ⟨by decide, by decide,
    (checkLevelUp_terminates_bounded { samplePlayer with xp := 105 }
      (by decide) (by decide)).2.2.1⟩

/-- The replace-in-place branch of `setAssoc` makes the key readable
back. -/
lemma getAssoc_mapSet {α : Type} (l : List (String × α)) (k : String) (v : α)
    (h : l.any (fun kv => kv.1 == k) = true) :
    getAssoc (l.map (fun kv => if kv.1 == k then (k, v) else kv)) k = some v := by
  induction l with
  | nil => simp at h
  | cons kv t ih =>
    obtain ⟨k1, x⟩ := kv
    by_cases hk : k1 = k
    · subst hk
      simp only [List.map_cons]
      rw [if_pos (by simp)]
      simp only [getAssoc]
      rw [List.find?_cons_of_pos _ (by simp)]
      simp
    · have ht : t.any (fun kv => kv.1 == k) = true := by
        simp only [List.any_cons] at h
        simpa [hk] using h
      simp only [List.map_cons]
      rw [if_neg (by simp [hk])]
      simp only [getAssoc] at ih ⊢
      rw [List.find?_cons_of_neg _ (by simp [hk])]
      exact ih ht

/-- Writing a key into an association list makes it readable back. -/
lemma getAssoc_setAssoc {α : Type} (l : List (String × α)) (k : String) (v : α) :
    getAssoc (setAssoc l k v) k = some v := by
  rw [setAssoc]
  by_cases h : l.any (fun kv => kv.1 == k)
  · rw [if_pos h]
    exact getAssoc_mapSet l k v h
  · rw [if_neg h]
    simp only [getAssoc, List.find?_append]
    have hnone : l.find? (fun kv => kv.1 == k) = none := by
      rw [List.find?_eq_none]
      intro kv hkv
      simp only [List.any_eq_true, not_exists, not_and] at h
      simp [h kv hkv]
    rw [hnone]
    simp only [Option.none_or]
    rw [List.find?_cons_of_pos _ (by simp)]
    rfl

/-- C8: equipping an item whose resolved slot is currently occupied
swaps the occupant back into the inventory (length preserved), installs
the new item in that slot, and recomputes `maxHp` from level and
constitution. -/
theorem handleEquip_swap (w : World) (p : Player) (intent : Intent) (rng : List ℚ)
    (idx : Nat) (item0 A : Item) (s : String) (r : TurnOut)
    (hidx : inventoryFindIdx intent.target p.inventory = some idx)
    (hget : p.inventory.get? idx = some item0)
    (hslot : (if item0.slot.isNone && item0.type == "weapon"
        then { item0 with slot := some "weapon" } else item0).slot = some s)
    (hocc : getAssoc p.equipment s = some A)
    (hrun : handleEquip w p intent rng = .ok r) :
    r.player.inventory.length = p.inventory.length
    ∧ A ∈ r.player.inventory
    ∧ getAssoc r.player.equipment s
        = some (if item0.slot.isNone && item0.type == "weapon"
            then { item0 with slot := some "weapon" } else item0)
    ∧ r.player.maxHp = calculateMaxHp p.level p.stats.con := by
  have hlt : idx < p.inventory.length := (List.get?_eq_some.mp hget).1
  rw [handleEquip, hidx] at hrun
  dsimp only at hrun
  rw [show (p.inventory.get? idx).getD emptyItem = item0 by rw [hget]; rfl] at hrun
  rw [hslot] at hrun
  dsimp only at hrun
  rw [hocc] at hrun
  dsimp only at hrun
  have hr := Except.ok.inj hrun
  have herase : (p.inventory ++ [A]).eraseIdx idx = p.inventory.eraseIdx idx ++ [A] :=
    List.eraseIdx_append_of_lt_length hlt [A]
  subst hr
  refine ⟨?_, ?_, ?_, rfl⟩
  · show ((p.inventory ++ [A]).eraseIdx idx).length = p.inventory.length
    rw [List.length_eraseIdx]
    simp only [List.length_append, List.length_singleton]
    rw [if_pos (by omega)]
    omega
  · show A ∈ (p.inventory ++ [A]).eraseIdx idx
    rw [herase]
    exact List.mem_append_right _ (List.mem_singleton_self A)
  · exact getAssoc_setAssoc _ _ _

/-- Witness for `handleEquip_swap`: the axe replaces the sword, the
sword returns to the inventory, length and maxHp as claimed. -/
theorem handleEquip_swap_witness :
    inventoryFindIdx (some "axe") equipPlayer.inventory = some 0
    ∧ equipPlayer.inventory.get? 0 = some axeItem
    ∧ getAssoc equipPlayer.equipment "weapon" = some swordItem
    ∧ rEquip.player.inventory.length = equipPlayer.inventory.length
    ∧ swordItem ∈ rEquip.player.inventory
    ∧ rEquip.player.maxHp = calculateMaxHp equipPlayer.level equipPlayer.stats.con := by
  have h := handleEquip_swap {} equipPlayer { action := "equip", target := some "axe" }
    [] 0 axeItem swordItem "weapon" rEquip (by decide) (by decide) (by decide)
    (by decide) rfl
  exact ⟨by decide, by decide, by decide, h.1, h.2.1, h.2.2.2⟩

/- ------------------ C1: attacking a 0-hp entity ------------------- -/

/-- Monadic plumbing: binding a successful `Except` is application. -/
lemma except_bind_ok {ε α β : Type} (a : α) (f : α → Except ε β) :
    (Except.ok (ε := ε) a >>= f) = f a := rfl

/-- `processAction` on a live, found player is the dispatched handler
followed by the mob aggro tick. -/
lemma processAction_ok_alive (w : World) (pid : String) (intent : Intent)
    (rng : List ℚ) (p : Player) (t0 : TurnOut)
    (hp : w.getPlayer pid = some p) (halive : p.alive = true)
    (hdisp : dispatchAction w p intent rng = Except.ok t0) :
    processAction w pid intent rng
      = Except.ok ⟨(mobAggroTick t0 intent.action).events,
          some (mobAggroTick t0 intent.action).player,
          (mobAggroTick t0 intent.action).world,
          (mobAggroTick t0 intent.action).rng⟩ := by
  rw [processAction]
  simp only [hp, halive, Bool.not_true, Bool.false_eq_true, if_false, hdisp,
    except_bind_ok]
  rfl

/-- `handleAttack` on a target that resolves to an entity with no hp
left: the single already-dead error, nothing else. -/
lemma handleAttack_dead (w : World) (p : Player) (intent : Intent) (rng : List ℚ)
    (node : Node) (tid : String) (e : Entity)
    (hnode : w.getNode p.location = some node)
    (htarget : resolveAttackTarget w node intent.target = some tid)
    (hent : w.getEntity tid = some e) (hdead : e.hp ≤ 0) :
    handleAttack w p intent rng
      = .ok ⟨[.error (optStr intent.target ++ " is already dead.")], p, w, rng⟩ := by
  rw [handleAttack, hnode]
  simp only [orThrow, except_bind_ok]
  rw [htarget]
  dsimp only
  rw [hent]
  dsimp only
  rw [if_pos hdead]
  rfl

/-- The dispatch table sends an `attack` intent to `handleAttack`. -/
lemma dispatchAction_attack (w : World) (p : Player) (intent : Intent)
    (rng : List ℚ) (hact : intent.action = "attack") :
    dispatchAction w p intent rng = handleAttack w p intent rng := by
  rw [dispatchAction, hact]
  simp

/-- The aggro loop does nothing when every entity in the list is
missing, dead or of a passive class. -/
lemma aggroLoop_all_passive (w : World) (targeted : Option String)
    (l : List String) (p : Player) (rng : List ℚ)
    (h : ∀ eid ∈ l, ∀ e2, w.getEntity eid = some e2 →
      e2.hp ≤ 0 ∨ e2.entityClass = "Merchant" ∨ e2.entityClass = "TutorialGuide") :
    aggroLoop w targeted l p rng = ([], p, rng, false) := by
  induction l with
  | nil => rfl
  | cons eid rest ih =>
    have hrest := ih (fun x hx e2 he2 => h x (List.mem_cons_of_mem eid hx) e2 he2)
    rw [aggroLoop]
    by_cases htg : targeted == some eid
    · rw [if_pos htg, hrest]
    · rw [if_neg htg]
      rcases hent : w.getEntity eid with _ | e2
      · dsimp only
        exact hrest
      · dsimp only
        by_cases hhp : e2.hp ≤ 0
        · rw [if_pos hhp]
          exact hrest
        · rw [if_neg hhp]
          have hcls : (e2.entityClass == "Merchant"
              || e2.entityClass == "TutorialGuide") = true := by
            rcases h eid (List.mem_cons_self eid rest) e2 hent with hdead | hm | htg2
            · omega
            · simp [hm]
            · simp [htg2]
          rw [if_pos hcls]
          exact hrest

/-- The aggro tick is the identity when every entity in the player's
room is missing, dead or passive (regardless of the action and of the
exemption id). -/
lemma mobAggroTick_passive (t : TurnOut) (action : String) (node : Node)
    (hmove : (action != "move") = true)
    (hnode : t.world.getNode t.player.location = some node)
    (hothers : ∀ eid ∈ node.entities, ∀ e2, t.world.getEntity eid = some e2 →
      e2.hp ≤ 0 ∨ e2.entityClass = "Merchant" ∨ e2.entityClass = "TutorialGuide") :
    mobAggroTick t action = t := by
  rw [mobAggroTick]
  by_cases halive : t.player.alive
  · rw [if_pos (by simp [halive, hmove]), hnode]
    dsimp only
    by_cases hemp : node.entities.isEmpty
    · rw [if_pos hemp]
    · rw [if_neg hemp, aggroLoop_all_passive _ _ _ _ _ hothers]
      dsimp only
      simp
  · rw [if_neg (by simp [halive])]

/-- C1 (amended): attacking a target whose resolved entity has 0 hp
yields the single already-dead error event from the handler, and — when
every other entity in the room is missing, dead or passive — the whole
turn leaves the player document, the room, the store and even the
random stream exactly unchanged. (The unamended claim fails when a live
hostile is present: see the counterexample.) -/
theorem attack_dead_target_amended (w : World) (pid : String) (intent : Intent)
    (rng : List ℚ) (p : Player) (node : Node) (tid : String) (e : Entity)
    (hact : intent.action = "attack")
    (hp : w.getPlayer pid = some p) (halive : p.alive = true)
    (hnode : w.getNode p.location = some node)
    (htarget : resolveAttackTarget w node intent.target = some tid)
    (hent : w.getEntity tid = some e) (hdead : e.hp = 0)
    (hothers : ∀ eid ∈ node.entities, ∀ e2, w.getEntity eid = some e2 →
      e2.hp ≤ 0 ∨ e2.entityClass = "Merchant" ∨ e2.entityClass = "TutorialGuide") :
    processAction w pid intent rng
      = .ok ⟨[.error (optStr intent.target ++ " is already dead.")],
          some p, w, rng⟩ := by
  have hdisp : dispatchAction w p intent rng
      = .ok ⟨[.error (optStr intent.target ++ " is already dead.")], p, w, rng⟩ := by
    rw [dispatchAction_attack w p intent rng hact]
    exact handleAttack_dead w p intent rng node tid e hnode htarget hent (by omega)
  rw [processAction_ok_alive w pid intent rng p _ hp halive hdisp]
  rw [hact]
  rw [mobAggroTick_passive _ _ node (by decide) hnode hothers]

/-- C1 counterexample: attacking the dead skeleton while the goblin is
in the room produces TWO events — the error plus the goblin's aggro
attack — and mutates the player (30 hp before, 26 after) and the store,
refuting "a single error event and no state mutation ... even when
other hostile entities are present". -/
theorem attack_dead_target_cex :
    processAction cexAttackWorld "p1"
        { action := "attack", target := some "skeleton" } [0]
      = .ok ⟨[.error "skeleton is already dead.",
              .entityAttack 4 "Goblin" 26 75],
          some { cexAttackPlayer with hp := 26 },
          savePlayer cexAttackWorld { cexAttackPlayer with hp := 26 }, []⟩
    ∧ cexAttackPlayer.hp = 30
    ∧ cexAttackWorld.getPlayer "p1" = some cexAttackPlayer := by
  have hD : resolveEnemyAttack cexAttackPlayer cexGoblin [0]
      = ⟨[.entityAttack 4 "Goblin" 26 75], false,
        { cexAttackPlayer with hp := 26 }, []⟩ := by
    simp [resolveEnemyAttack, rollDodge, rollSkillCheck, randDraw, getSkillLevel,
      getAssoc, getPlayerDefense, applyPlayerDamage, calculateDamage, getModifier,
      cexAttackPlayer, cexGoblin, samplePlayer]
  have hAg : mobAggroTick tAttackDead "attack"
      = ⟨[.error "skeleton is already dead.", .entityAttack 4 "Goblin" 26 75],
        { cexAttackPlayer with hp := 26 },
        savePlayer cexAttackWorld { cexAttackPlayer with hp := 26 }, []⟩ := by
    have halive : cexAttackPlayer.alive = true := rfl
    have hloc : cexAttackPlayer.location = "crypt" := rfl
    have hs1 : cexSkeleton.hp ≤ 0 := by decide
    have hg1 : ¬ cexGoblin.hp ≤ 0 := by decide
    have hg2 : (cexGoblin.entityClass == "Merchant") = false := by decide
    have hg3 : (cexGoblin.entityClass == "TutorialGuide") = false := by decide
    simp [mobAggroTick, tAttackDead, aggroLoop, hD, GEvent.typeTag,
      GEvent.attackTargetId, World.getNode, World.getEntity, getAssoc,
      cexAttackWorld, cexCrypt, halive, hloc, hs1, hg1, hg2, hg3]
  have hdisp : dispatchAction cexAttackWorld cexAttackPlayer
      { action := "attack", target := some "skeleton" } [0] = .ok tAttackDead := rfl
  refine ⟨?_, rfl, rfl⟩
  rw [processAction_ok_alive cexAttackWorld "p1" _ [0] cexAttackPlayer tAttackDead
    rfl rfl hdisp]
  dsimp only
  rw [hAg]

/-- Witness for `attack_dead_target_amended`: the same attack with the
goblin already dead too — one error event, nothing changes. -/
theorem attack_dead_target_amended_witness :
    ({ cexAttackWorld with
        entities := [("skeleton", cexSkeleton),
          ("goblin", { cexGoblin with hp := 0 })] } : World).getPlayer "p1"
      = some cexAttackPlayer
    ∧ cexSkeleton.hp = 0
    ∧ processAction { cexAttackWorld with
          entities := [("skeleton", cexSkeleton),
            ("goblin", { cexGoblin with hp := 0 })] } "p1"
        { action := "attack", target := some "skeleton" } [0]
      = .ok ⟨[.error "skeleton is already dead."], some cexAttackPlayer,
          { cexAttackWorld with
            entities := [("skeleton", cexSkeleton),
              ("goblin", { cexGoblin with hp := 0 })] }, [0]⟩ :=
  ⟨rfl, rfl,
    attack_dead_target_amended _ "p1" _ [0] cexAttackPlayer cexCrypt "skeleton"
      cexSkeleton rfl rfl rfl rfl rfl rfl rfl (by decide)⟩

/- ------------------ C4: failed flee retaliation ------------------- -/

/-- A dodge roll emits only skill events, never an entity attack. -/
lemma rollDodge_no_attack (p : Player) (e : Entity) (rng : List ℚ) :
    ∀ ev ∈ (rollDodge p e rng).events, isEntityAttack ev = false := by
  rw [rollDodge]
  rcases rollSkillCheck (getSkillLevel p "dodge") p.stats.dex (65 + e.attack / 2) rng
    with ⟨check, rng1⟩
  dsimp only
  by_cases hs : check.success
  · rw [if_pos hs]
    rcases checkSkillLevelUp (getSkillLevel p "dodge") rng1 with ⟨lvlUp, rng2⟩
    dsimp only
    by_cases hl : lvlUp
    · rw [if_pos hl]
      simp [isEntityAttack]
    · rw [if_neg hl]
      simp [isEntityAttack]
  · rw [if_neg hs]
    simp

/-- The standalone entity attack emits exactly one `entity_attack`
event when the dodge fails and none when it succeeds, and any
`entity_attack` it emits names that entity as the attacker. -/
lemma resolveEnemyAttack_count (p : Player) (e : Entity) (rng : List ℚ) :
    ((resolveEnemyAttack p e rng).events.countP isEntityAttack
      = if (rollDodge p e rng).dodged then 0 else 1)
    ∧ ∀ ev ∈ (resolveEnemyAttack p e rng).events, isEntityAttack ev = true →
        ∃ d hp2 mh, ev = GEvent.entityAttack d e.name hp2 mh := by
  have hnd := rollDodge_no_attack p e rng
  rw [resolveEnemyAttack]
  by_cases hd : (rollDodge p e rng).dodged
  · rw [if_pos hd, if_pos hd]
    dsimp only
    constructor
    · rw [List.countP_eq_zero]
      intro ev hev
      simp [hnd ev hev]
    · intro ev hev hattack
      rw [hnd ev hev] at hattack
      exact absurd hattack (by simp)
  · rw [if_neg hd, if_neg hd]
    dsimp only
    have hcount : (rollDodge p e rng).events.countP isEntityAttack = 0 := by
      rw [List.countP_eq_zero]
      intro ev hev
      simp [hnd ev hev]
    by_cases hdead : (applyPlayerDamage (rollDodge p e rng).player
        (calculateDamage e.attack 10 (getPlayerDefense (rollDodge p e rng).player))).hp ≤ 0
    · rw [if_pos hdead]
      dsimp only
      constructor
      · rw [List.countP_append, hcount]
        simp [List.countP_cons, isEntityAttack]
      · intro ev hev hattack
        rcases List.mem_append.mp hev with h1 | h2
        · rw [hnd ev h1] at hattack
          exact absurd hattack (by simp)
        · rcases h2 with _ | ⟨_, h3⟩
          · exact ⟨_, _, _, rfl⟩
          · rcases h3 with _ | ⟨_, h4⟩
            · exact absurd hattack (by simp [isEntityAttack])
            · exact absurd h4 (List.not_mem_nil ev)
    · rw [if_neg hdead]
      dsimp only
      constructor
      · rw [List.countP_append, hcount]
        simp [List.countP_cons, isEntityAttack]
      · intro ev hev hattack
        rcases List.mem_append.mp hev with h1 | h2
        · rw [hnd ev h1] at hattack
          exact absurd hattack (by simp)
        · rcases h2 with _ | ⟨_, h3⟩
          · exact ⟨_, _, _, rfl⟩
          · exact absurd h3 (List.not_mem_nil ev)

/-- The dispatch table sends a `flee` intent to `handleFlee`. -/
lemma dispatchAction_flee (w : World) (p : Player) (intent : Intent)
    (rng : List ℚ) (hact : intent.action = "flee") :
    dispatchAction w p intent rng = handleFlee w p rng := by
  rw [dispatchAction, hact]
  simp

/-- C4 (amended): when the flee skill check fails, the flee handler
inflicts at most one retaliation attack — exactly one when the dodge
also fails, none when the player dodges — and every `entity_attack`
event it emits names the FIRST hostile in the room as the attacker.
(Across the whole turn the original claim fails: the aggro pass lets
that same hostile attack again, see the counterexample.) -/
theorem handleFlee_fail_one_retaliation (w : World) (p : Player)
    (rng rng1 : List ℚ) (node : Node) (attacker : Entity) (hs : List Entity)
    (check : SkillCheck) (r : TurnOut)
    (hnode : w.getNode p.location = some node)
    (hhost : hostileEntitiesOf w node = attacker :: hs)
    (hex : (exitsOf node).isEmpty = false)
    (hsc : rollSkillCheck (getSkillLevel p "flee") p.stats.dex 70 rng = (check, rng1))
    (hfail : check.success = false)
    (hrun : handleFlee w p rng = .ok r) :
    r.events.countP isEntityAttack
      = (if (rollDodge p attacker rng1).dodged then 0 else 1)
    ∧ r.events.countP isEntityAttack ≤ 1
    ∧ ∀ ev ∈ r.events, isEntityAttack ev = true →
        ∃ d hp2 mh, ev = GEvent.entityAttack d attacker.name hp2 mh := by
  rw [handleFlee, hnode] at hrun
  simp only [orThrow, except_bind_ok] at hrun
  rw [hhost] at hrun
  dsimp only at hrun
  rw [hex] at hrun
  simp only [Bool.false_eq_true, if_false] at hrun
  rw [hsc] at hrun
  dsimp only at hrun
  rw [hfail] at hrun
  simp only [Bool.false_eq_true, if_false] at hrun
  have hr := Except.ok.inj hrun
  subst hr
  obtain ⟨hcnt, hmem⟩ := resolveEnemyAttack_count p attacker rng1
  dsimp only
  simp only [List.singleton_append]
  constructor
  · rw [List.countP_cons]
    simp only [isEntityAttack]
    rw [hcnt]
    simp
  constructor
  · rw [List.countP_cons]
    simp only [isEntityAttack]
    rw [hcnt]
    split <;> simp
  · intro ev hev hattack
    rcases hev with _ | ⟨_, h2⟩
    · exact absurd hattack (by simp [isEntityAttack])
    · exact hmem ev h2 hattack

/-- Concrete evaluation of the failed flee (draws 0, 0: the check and
the dodge both fail; the third 0 is left for the aggro pass). -/
lemma handleFlee_cex_eval : handleFlee fleeWorld fleePlayer [0, 0, 0] = .ok tFleeFail := by
  have h1 : rollSkillCheck 1 10 70 [0, 0, 0]
      = ({ success := false, roll := 1, threshold := 65, margin := -64 }, [0, 0]) := by
    simp [rollSkillCheck, randDraw, getModifier]
  have h2 : resolveEnemyAttack fleePlayer fleeGoblin [0, 0]
      = ⟨[.entityAttack 4 "Goblin" 26 75], false, { fleePlayer with hp := 26 }, [0]⟩ := by
    simp [resolveEnemyAttack, rollDodge, rollSkillCheck, randDraw, getSkillLevel,
      getAssoc, getPlayerDefense, applyPlayerDamage, calculateDamage, getModifier,
      fleePlayer, fleeGoblin, samplePlayer]
  rw [handleFlee]
  rw [show fleeWorld.getNode fleePlayer.location = some fleeDen from rfl]
  simp only [orThrow, except_bind_ok]
  rw [show hostileEntitiesOf fleeWorld fleeDen = [fleeGoblin] from rfl]
  dsimp only
  rw [show (exitsOf fleeDen).isEmpty = false from rfl]
  simp only [Bool.false_eq_true, if_false]
  rw [show getSkillLevel fleePlayer "flee" = 1 from rfl,
    show fleePlayer.stats.dex = 10 from rfl, h1]
  dsimp only
  rw [h2]
  rfl

/-- C4 counterexample: on the failed flee the goblin retaliates in the
handler AND attacks again in the post-turn aggro pass (flee emits no
`player_attack` event, so nothing exempts it): the turn carries two
`entity_attack` events from the room's single hostile, and the player
loses 4 hp twice, refuting "no hostile attacks the player more than
once in that turn". -/
theorem flee_fail_cex :
    processAction fleeWorld "p1" { action := "flee" } [0, 0, 0]
      = .ok ⟨[.skillCheck "Flee" "fail" 1 65 "You stumble! The enemies close in...",
             .entityAttack 4 "Goblin" 26 75, .entityAttack 4 "Goblin" 22 75],
          some fleePlayer22,
          savePlayer (savePlayer fleeWorld fleePlayer26) fleePlayer22, []⟩
    ∧ ([GEvent.skillCheck "Flee" "fail" 1 65 "You stumble! The enemies close in...",
        .entityAttack 4 "Goblin" 26 75,
        .entityAttack 4 "Goblin" 22 75].countP isEntityAttack = 2)
    ∧ hostileEntitiesOf fleeWorld fleeDen = [fleeGoblin] := by
  have hD2 : resolveEnemyAttack fleePlayer26 fleeGoblin [0]
      = ⟨[.entityAttack 4 "Goblin" 22 75], false, fleePlayer22, []⟩ := by
    simp [resolveEnemyAttack, rollDodge, rollSkillCheck, randDraw, getSkillLevel,
      getAssoc, getPlayerDefense, applyPlayerDamage, calculateDamage, getModifier,
      fleePlayer26, fleePlayer22, fleePlayer, fleeGoblin, samplePlayer]
  have hAg : mobAggroTick tFleeFail "flee"
      = ⟨[.skillCheck "Flee" "fail" 1 65 "You stumble! The enemies close in...",
          .entityAttack 4 "Goblin" 26 75, .entityAttack 4 "Goblin" 22 75],
        fleePlayer22, savePlayer (savePlayer fleeWorld fleePlayer26) fleePlayer22,
        []⟩ := by
    have halive : fleePlayer26.alive = true := rfl
    have hloc : fleePlayer26.location = "den" := rfl
    have hnode2 : (savePlayer fleeWorld fleePlayer26).getNode "den" = some fleeDen := rfl
    have hent2 : (savePlayer fleeWorld fleePlayer26).getEntity "goblin"
        = some fleeGoblin := rfl
    have hg1 : ¬ fleeGoblin.hp ≤ 0 := by decide
    have hg2 : (fleeGoblin.entityClass == "Merchant") = false := by decide
    have hg3 : (fleeGoblin.entityClass == "TutorialGuide") = false := by decide
    simp [mobAggroTick, tFleeFail, aggroLoop, hD2, GEvent.typeTag,
      GEvent.attackTargetId, fleeDen, halive, hloc, hnode2, hent2, hg1, hg2, hg3]
  have hdisp : dispatchAction fleeWorld fleePlayer { action := "flee" } [0, 0, 0]
      = .ok tFleeFail := by
    rw [dispatchAction_flee _ _ _ _ rfl]
    exact handleFlee_cex_eval
  refine ⟨?_, by decide, rfl⟩
  rw [processAction_ok_alive fleeWorld "p1" _ [0, 0, 0] fleePlayer tFleeFail
    rfl rfl hdisp]
  dsimp only
  rw [hAg]

/-- Witness for `handleFlee_fail_one_retaliation` on the concrete
failed flee: exactly one retaliation by the first (and only) hostile. -/
theorem handleFlee_fail_one_retaliation_witness :
    fleeWorld.getNode fleePlayer.location = some fleeDen
    ∧ hostileEntitiesOf fleeWorld fleeDen = [fleeGoblin]
    ∧ tFleeFail.events.countP isEntityAttack ≤ 1 := by
  refine ⟨rfl, rfl, ?_⟩
  exact (handleFlee_fail_one_retaliation fleeWorld fleePlayer [0, 0, 0] [0, 0]
    fleeDen fleeGoblin [] { success := false, roll := 1, threshold := 65, margin := -64 }
    tFleeFail rfl rfl rfl
    (by simp [rollSkillCheck, randDraw, getModifier, getSkillLevel, getAssoc,
      fleePlayer, samplePlayer])
    rfl handleFlee_cex_eval).2.1

/- ------------------ C9: the hp ∈ [0, maxHp] invariant ------------- -/

lemma RngWf.tail {rng : List ℚ} (h : RngWf rng) : RngWf rng.tail :=
  fun u hu => h u (List.mem_of_mem_tail hu)

lemma RngWf.headD {rng : List ℚ} (h : RngWf rng) :
    0 ≤ rng.headD 0 ∧ rng.headD 0 < 1 := by
  cases rng with
  | nil => norm_num
  | cons u rest => exact h u (List.mem_cons_self u rest)

/-- Damage application with a non-negative amount keeps hp in range. -/
lemma applyPlayerDamage_wf (p : Player) (d : Int) (hw : PlayerWf p) (hd : 0 ≤ d) :
    PlayerWf (applyPlayerDamage p d) := by
  obtain ⟨h0, h1, h2, h3, h4⟩ := hw
  exact ⟨le_max_left _ _, by simp only [applyPlayerDamage]; omega, h2, h3, h4⟩

/-- `calculateDamage` is at least 1. -/
lemma calculateDamage_pos (a b c : Int) : 0 ≤ calculateDamage a b c := by
  have : (1 : Int) ≤ calculateDamage a b c := le_max_left _ _
  omega

lemma addEvent_wf (p : Player) (t : String) (hw : PlayerWf p) :
    PlayerWf (addEvent p t) := hw

lemma bumpSkill_wf (p : Player) (s : String) (hw : PlayerWf p) :
    PlayerWf (bumpSkill p s) := hw

/-- The dodge roll never touches hp, items or derived stats. -/
lemma rollDodge_wf (p : Player) (e : Entity) (rng : List ℚ) (hw : PlayerWf p) :
    PlayerWf (rollDodge p e rng).player := by
  rw [rollDodge]
  rcases rollSkillCheck (getSkillLevel p "dodge") p.stats.dex (65 + e.attack / 2) rng
    with ⟨check, rng1⟩
  dsimp only
  by_cases hs : check.success
  · rw [if_pos hs]
    rcases checkSkillLevelUp (getSkillLevel p "dodge") rng1 with ⟨lvlUp, rng2⟩
    dsimp only
    by_cases hl : lvlUp
    · rw [if_pos hl]
      exact bumpSkill_wf p "dodge" hw
    · rw [if_neg hl]
      exact hw
  · rw [if_neg hs]
    exact hw

/-- The standalone entity attack keeps the player well-formed. -/
lemma resolveEnemyAttack_wf (p : Player) (e : Entity) (rng : List ℚ)
    (hw : PlayerWf p) : PlayerWf (resolveEnemyAttack p e rng).player := by
  have hd := rollDodge_wf p e rng hw
  rw [resolveEnemyAttack]
  dsimp only
  split
  · exact hd
  · split
    · exact applyPlayerDamage_wf _ _ hd (calculateDamage_pos _ _ _)
    · exact applyPlayerDamage_wf _ _ hd (calculateDamage_pos _ _ _)

/-- The full combat exchange keeps the player well-formed. -/
lemma resolveCombat_wf (p : Player) (e : Entity) (rng : List ℚ)
    (hw : PlayerWf p) : PlayerWf (resolveCombat p e rng).player := by
  rw [resolveCombat]
  dsimp only
  repeat' split
  all_goals first
    | exact hw
    | exact rollDodge_wf _ _ _ hw
    | exact applyPlayerDamage_wf _ _ (rollDodge_wf _ _ _ hw) (calculateDamage_pos _ _ _)

/-- Every level-up iteration heals to the recomputed maxHp, which the
consistency invariant keeps 5 above the previous one, so the whole loop
preserves well-formedness whatever the starting level. -/
lemma checkLevelUp_wf : ∀ (n : Nat) (p : Player),
    (p.xp + 50 * (p.level * p.level) - 51 * p.level + 1).toNat = n →
    PlayerWf p → PlayerWf (checkLevelUp p).1 := by
  intro n
  induction n using Nat.strong_induction_on with
  | _ n ih =>
    intro p hn hw
    by_cases hc : xpToNextLevel p.level ≤ p.xp
    · have hdec : ((levelUpStep p).xp + 50 * ((levelUpStep p).level * (levelUpStep p).level)
          - 51 * (levelUpStep p).level + 1).toNat < n := by
        have hL : (levelUpStep p).level = p.level + 1 := rfl
        have hX : (levelUpStep p).xp = p.xp - p.level * 100 := rfl
        rw [hL, hX]
        have hsq : 0 ≤ 50 * (p.level * p.level) + 49 * p.level := by
          rcases le_or_lt 0 p.level with h0 | h0
          · nlinarith [mul_nonneg h0 h0]
          · nlinarith [mul_nonneg (a := -p.level) (b := -(50 * p.level + 49))
              (by omega) (by omega)]
        have hexp : (p.level + 1) * (p.level + 1)
            = p.level * p.level + 2 * p.level + 1 := by ring
        rw [hexp]
        simp only [xpToNextLevel] at hc
        generalize p.level * p.level = L2 at hsq hn ⊢
        omega
      have hqwf : PlayerWf (levelUpStep p) := by
        obtain ⟨h0, h1, h2, h3, h4⟩ := hw
        refine ⟨?_, le_refl _, rfl, h3, h4⟩
        show 0 ≤ calculateMaxHp (p.level + 1) p.stats.con
        have : calculateMaxHp (p.level + 1) p.stats.con
            = calculateMaxHp p.level p.stats.con + 5 := by
          simp only [calculateMaxHp]
          ring
        omega
      have := ih _ hdec (levelUpStep p) rfl hqwf
      have hunfold : checkLevelUp p
          = ((checkLevelUp (levelUpStep p)).1,
            GEvent.levelUp (levelUpStep p).level
                (levelUpStep p).statPointsAvailable (levelUpStep p).maxHp
              :: (checkLevelUp (levelUpStep p)).2) := by
        rw [checkLevelUp, if_pos hc]
      rw [hunfold]
      exact this
    · have hunfold : checkLevelUp p = (p, []) := by
        rw [checkLevelUp, if_neg hc]
      rw [hunfold]
      exact hw

/-- Membership after an association write: the new value or an old
entry. -/
lemma mem_setAssoc {α : Type} (l : List (String × α)) (k : String) (v : α)
    (kv : String × α) (h : kv ∈ setAssoc l k v) : kv.2 = v ∨ kv ∈ l := by
  rw [setAssoc] at h
  by_cases hany : l.any (fun kv => kv.1 == k)
  · rw [if_pos hany] at h
    obtain ⟨kv', hkv', heq⟩ := List.mem_map.mp h
    by_cases hk : kv'.1 == k
    · rw [if_pos hk] at heq
      left
      rw [← heq]
    · rw [if_neg hk] at heq
      right
      rw [← heq]
      exact hkv'
  · rw [if_neg hany] at h
    rcases List.mem_append.mp h with h1 | h2
    · right
      exact h1
    · left
      rcases h2 with _ | ⟨_, h3⟩
      · rfl
      · exact absurd h3 (List.not_mem_nil kv)

/-- A successful association lookup names a stored value. -/
lemma getAssoc_mem {α : Type} (l : List (String × α)) (k : String) (v : α)
    (h : getAssoc l k = some v) : ∃ k', (k', v) ∈ l := by
  rw [getAssoc] at h
  rcases hf : l.find? (fun kv => kv.1 == k) with _ | kv
  · rw [hf] at h
    exact absurd h (by simp)
  · rw [hf] at h
    have h2 : kv.2 = v := by simpa using h
    have hm := List.mem_of_find?_eq_some hf
    exact ⟨kv.1, h2 ▸ (show (kv.1, kv.2) ∈ l from hm)⟩

/-- The aggro loop keeps the player well-formed. -/
lemma aggroLoop_wf (w : World) (targeted : Option String) (l : List String)
    (p : Player) (rng : List ℚ) (hw : PlayerWf p) :
    PlayerWf (aggroLoop w targeted l p rng).2.1 := by
  induction l generalizing p rng with
  | nil => exact hw
  | cons eid rest ih =>
    rw [aggroLoop]
    split
    · exact ih p rng hw
    · split
      · exact ih p rng hw
      · split
        · exact ih p rng hw
        · split
          · exact ih p rng hw
          · dsimp only
            split
            · exact resolveEnemyAttack_wf _ _ _ hw
            · exact ih _ _ (resolveEnemyAttack_wf _ _ _ hw)

/-- The aggro tick keeps the player well-formed. -/
lemma mobAggroTick_wf (t : TurnOut) (action : String) (hw : PlayerWf t.player) :
    PlayerWf (mobAggroTick t action).player := by
  rw [mobAggroTick]
  split
  · split
    · split
      · exact hw
      · exact aggroLoop_wf _ _ _ _ _ hw
    · exact hw
  · exact hw

/-- Monadic plumbing: binding a failed `Except` propagates the error. -/
lemma except_bind_error {ε α β : Type} (e : ε) (f : α → Except ε β) :
    (Except.error (α := α) e >>= f) = Except.error e := rfl

/-- The item copied out of the inventory by index carries no negative
heal amount (a missing index copies the empty object). -/
lemma inventory_item_wf (p : Player) (idx : Nat)
    (h3 : ∀ it ∈ p.inventory, 0 ≤ it.stats.healAmount) :
    0 ≤ ((p.inventory.get? idx).getD emptyItem).stats.healAmount := by
  rcases hg : p.inventory.get? idx with _ | it
  · norm_num [emptyItem]
  · exact h3 it (List.get?_mem hg)

/-- Erasing an inventory index preserves the no-negative-heal bound. -/
lemma eraseIdx_heal_wf (l : List Item) (idx : Nat)
    (h3 : ∀ it ∈ l, 0 ≤ it.stats.healAmount) :
    ∀ it ∈ l.eraseIdx idx, 0 ≤ it.stats.healAmount :=
  fun it hit => h3 it ((List.eraseIdx_sublist l idx).mem hit)

lemma handleLook_wf (w : World) (p : Player) (rng : List ℚ) (t : TurnOut)
    (hw : PlayerWf p) (hrun : handleLook w p rng = .ok t) : PlayerWf t.player := by
  rw [handleLook] at hrun
  split at hrun <;> (have h := Except.ok.inj hrun; subst h; exact hw)

lemma handleInventory_wf (w : World) (p : Player) (rng : List ℚ) (t : TurnOut)
    (hw : PlayerWf p) (hrun : handleInventory w p rng = .ok t) : PlayerWf t.player := by
  rw [handleInventory] at hrun
  have h := Except.ok.inj hrun
  subst h
  exact hw

lemma handleStats_wf (w : World) (p : Player) (rng : List ℚ) (t : TurnOut)
    (hw : PlayerWf p) (hrun : handleStats w p rng = .ok t) : PlayerWf t.player := by
  rw [handleStats] at hrun
  have h := Except.ok.inj hrun
  subst h
  exact hw

lemma handleMap_wf (w : World) (p : Player) (rng : List ℚ) (t : TurnOut)
    (hw : PlayerWf p) (hrun : handleMap w p rng = .ok t) : PlayerWf t.player := by
  rw [handleMap] at hrun
  have h := Except.ok.inj hrun
  subst h
  exact hw

lemma handleTalk_wf (w : World) (p : Player) (intent : Intent) (rng : List ℚ)
    (t : TurnOut) (hw : PlayerWf p) (hrun : handleTalk w p intent rng = .ok t) :
    PlayerWf t.player := by
  rw [handleTalk] at hrun
  rcases hnode : w.getNode p.location with _ | node
  · rw [hnode] at hrun
    simp only [orThrow, except_bind_error] at hrun
    exact Except.noConfusion hrun
  · rw [hnode] at hrun
    simp only [orThrow, except_bind_ok] at hrun
    split at hrun
    · have h := Except.ok.inj hrun
      subst h
      exact hw
    · split at hrun <;> (have h := Except.ok.inj hrun; subst h; exact hw)

lemma handleInspect_wf (w : World) (p : Player) (intent : Intent) (rng : List ℚ)
    (t : TurnOut) (hw : PlayerWf p) (hrun : handleInspect w p intent rng = .ok t) :
    PlayerWf t.player := by
  rw [handleInspect] at hrun
  split at hrun
  · have h := Except.ok.inj hrun
    subst h
    exact hw
  · dsimp only at hrun
    split at hrun
    · have h := Except.ok.inj hrun
      subst h
      exact hw
    · rcases hnode : w.getNode p.location with _ | node
      · rw [hnode] at hrun
        simp only [orThrow, except_bind_error] at hrun
        exact Except.noConfusion hrun
      · rw [hnode] at hrun
        simp only [orThrow, except_bind_ok] at hrun
        split at hrun <;> (have h := Except.ok.inj hrun; subst h; exact hw)

lemma handleUse_wf (w : World) (p : Player) (intent : Intent) (rng : List ℚ)
    (t : TurnOut) (hw : PlayerWf p) (hrun : handleUse w p intent rng = .ok t) :
    PlayerWf t.player := by
  obtain ⟨h0, h1, h2, h3, h4⟩ := hw
  rw [handleUse] at hrun
  split at hrun
  · have h := Except.ok.inj hrun
    subst h
    exact ⟨h0, h1, h2, h3, h4⟩
  · rename_i idx heq
    have hheal := inventory_item_wf p idx h3
    dsimp only at hrun
    split at hrun
    · have h := Except.ok.inj hrun
      subst h
      exact ⟨h0, h1, h2, h3, h4⟩
    · split at hrun
      · dsimp only at hrun
        have h := Except.ok.inj hrun
        subst h
        refine ⟨?_, ?_, h2, ?_, h4⟩
        · show 0 ≤ p.hp + min _ (p.maxHp - p.hp)
          omega
        · show p.hp + min _ (p.maxHp - p.hp) ≤ p.maxHp
          omega
        · exact eraseIdx_heal_wf _ _ h3
      · dsimp only at hrun
        have h := Except.ok.inj hrun
        subst h
        exact ⟨h0, h1, h2, eraseIdx_heal_wf _ _ h3, h4⟩

lemma handleEquip_wf (w : World) (p : Player) (intent : Intent) (rng : List ℚ)
    (t : TurnOut) (hw : PlayerWf p) (hrun : handleEquip w p intent rng = .ok t) :
    PlayerWf t.player := by
  obtain ⟨h0, h1, h2, h3, h4⟩ := hw
  rw [handleEquip] at hrun
  split at hrun
  · have h := Except.ok.inj hrun
    subst h
    exact ⟨h0, h1, h2, h3, h4⟩
  · rename_i idx _
    have hitem := inventory_item_wf p idx h3
    dsimp only at hrun
    split at hrun
    · have h := Except.ok.inj hrun
      subst h
      exact ⟨h0, h1, h2, h3, h4⟩
    · rename_i slot _
      split at hrun
      · rename_i currentEquipped hocc
        have h := Except.ok.inj hrun
        subst h
        refine ⟨h0, ?_, rfl, ?_, ?_⟩
        · show p.hp ≤ calculateMaxHp p.level p.stats.con
          rw [← h2]
          exact h1
        · intro it hit
          have hmem := (List.eraseIdx_sublist _ idx).mem hit
          rcases List.mem_append.mp hmem with hin | hlast
          · exact h3 it hin
          · rcases hlast with _ | ⟨_, hn⟩
            · obtain ⟨k', hk'⟩ := getAssoc_mem _ _ _ hocc
              exact h4 _ hk'
            · exact absurd hn (List.not_mem_nil it)
        · intro kv hkv
          rcases mem_setAssoc _ _ _ kv hkv with heq | hold
          · rw [heq]
            split
            · exact hitem
            · exact hitem
          · exact h4 kv hold
      · have h := Except.ok.inj hrun
        subst h
        refine ⟨h0, ?_, rfl, eraseIdx_heal_wf _ _ h3, ?_⟩
        · show p.hp ≤ calculateMaxHp p.level p.stats.con
          rw [← h2]
          exact h1
        · intro kv hkv
          rcases mem_setAssoc _ _ _ kv hkv with heq2 | hold
          · rw [heq2]
            split
            · exact hitem
            · exact hitem
          · exact h4 kv hold

lemma handleAllocateStat_wf (w : World) (p : Player) (intent : Intent)
    (rng : List ℚ) (t : TurnOut) (hw : PlayerWf p)
    (hrun : handleAllocateStat w p intent rng = .ok t) : PlayerWf t.player := by
  obtain ⟨h0, h1, h2, h3, h4⟩ := hw
  rw [handleAllocateStat] at hrun
  split at hrun
  · have h := Except.ok.inj hrun
    subst h
    exact ⟨h0, h1, h2, h3, h4⟩
  · split at hrun
    · have h := Except.ok.inj hrun
      subst h
      exact ⟨h0, h1, h2, h3, h4⟩
    · rename_i stats1 halloc
      have hcon : stats1.con = p.stats.con ∨ stats1.con = p.stats.con + 1 := by
        rw [allocateStatPoint] at halloc
        split at halloc
        · left
          have := Option.some.inj halloc
          rw [← this]
        · split at halloc
          · left
            have := Option.some.inj halloc
            rw [← this]
          · split at halloc
            · right
              have := Option.some.inj halloc
              rw [← this]
            · split at halloc
              · left
                have := Option.some.inj halloc
                rw [← this]
              · split at halloc
                · left
                  have := Option.some.inj halloc
                  rw [← this]
                · split at halloc
                  · left
                    have := Option.some.inj halloc
                    rw [← this]
                  · exact Option.noConfusion halloc
      have h := Except.ok.inj hrun
      subst h
      refine ⟨h0, ?_, rfl, h3, h4⟩
      show p.hp ≤ calculateMaxHp p.level stats1.con
      have hmono : calculateMaxHp p.level p.stats.con ≤ calculateMaxHp p.level stats1.con := by
        simp only [calculateMaxHp]
        rcases hcon with hc | hc <;> omega
      omega

lemma rollSkillCheck_rng_wf (a b c : Int) {rng : List ℚ} (hr : RngWf rng) :
    RngWf (rollSkillCheck a b c rng).2 := hr.tail

lemma checkSkillLevelUp_rng_wf (l : Int) {rng : List ℚ} (hr : RngWf rng) :
    RngWf (checkSkillLevelUp l rng).2 := by
  rw [checkSkillLevelUp]
  split
  · exact hr
  · exact hr.tail

/-- With draws in `[0,1)` the d6 term is at least 1, so hazard damage is
never negative. -/
lemma calculateHazardDamage_nonneg (hz : Int) (rng : List ℚ) (hr : RngWf rng) :
    0 ≤ (calculateHazardDamage hz rng).1 := by
  rw [calculateHazardDamage]
  split
  · norm_num
  · rename_i hpos
    dsimp only [randDraw]
    have hu := hr.headD
    have hfl : 0 ≤ ⌊rng.headD 0 * 6⌋ := Int.floor_nonneg.mpr (mul_nonneg hu.1 (by norm_num))
    have hhz : 0 < hz := by omega
    exact mul_nonneg (by omega) (by omega)

/-- The scavenge spawn phase never touches hp, maxHp, stats, items or
equipment of the player: only a possible skill bump. -/
lemma moveSpawnPhase_wf (w : World) (newNode : Node) (p : Player) (rng : List ℚ)
    (hw : PlayerWf p) : PlayerWf (moveSpawnPhase w newNode p rng).2.1 := by
  rw [moveSpawnPhase]
  dsimp only [randDraw]
  repeat' first | split | dsimp only
  all_goals exact hw

/-- The hazard phase of a move keeps hp in `[0, maxHp]`: the trap damage
is non-negative under in-range draws and is applied through the clamp. -/
lemma moveHazardPhase_wf (newNode : Node) (p : Player) (rng : List ℚ)
    (hw : PlayerWf p) (hr : RngWf rng) :
    PlayerWf (moveHazardPhase newNode p rng).2.1 := by
  rw [moveHazardPhase]
  split
  · dsimp only
    rcases hsc : rollSkillCheck (getSkillLevel p "senseDanger") p.stats.wis
        (55 + newNode.hazardLevel * 10) rng with ⟨dangerCheck, rng1⟩
    have hr1 : RngWf rng1 := by
      have h : (rollSkillCheck (getSkillLevel p "senseDanger") p.stats.wis
          (55 + newNode.hazardLevel * 10) rng).2 = rng1 := by rw [hsc]
      rw [← h]
      exact rollSkillCheck_rng_wf _ _ _ hr
    dsimp only
    repeat' split
    all_goals first
      | exact hw
      | exact applyPlayerDamage_wf _ _ hw (calculateHazardDamage_nonneg _ _ hr1.tail)
      | exact applyPlayerDamage_wf _ _ hw
          (calculateHazardDamage_nonneg _ _ (checkSkillLevelUp_rng_wf _ hr1).tail)
  · exact hw

lemma handleMove_wf (w : World) (p : Player) (intent : Intent) (rng : List ℚ)
    (t : TurnOut) (hw : PlayerWf p) (hr : RngWf rng)
    (hrun : handleMove w p intent rng = .ok t) : PlayerWf t.player := by
  rw [handleMove] at hrun
  repeat' first | split at hrun | dsimp only at hrun
  all_goals (have h := Except.ok.inj hrun; subst h)
  all_goals first
    | exact hw
    | exact moveSpawnPhase_wf _ _ _ _ (moveHazardPhase_wf _ _ _ hw hr)

lemma handlePickup_wf (w : World) (p : Player) (intent : Intent) (rng : List ℚ)
    (t : TurnOut) (hw : PlayerWf p)
    (hWit : ∀ kv ∈ w.items, 0 ≤ kv.2.stats.healAmount)
    (hrun : handlePickup w p intent rng = .ok t) : PlayerWf t.player := by
  obtain ⟨h0, h1, h2, h3, h4⟩ := hw
  rw [handlePickup] at hrun
  rcases hnode : w.getNode p.location with _ | node
  · rw [hnode] at hrun
    simp only [orThrow, except_bind_error] at hrun
    exact Except.noConfusion hrun
  · rw [hnode] at hrun
    simp only [orThrow, except_bind_ok] at hrun
    split at hrun
    · have h := Except.ok.inj hrun
      subst h
      exact ⟨h0, h1, h2, h3, h4⟩
    · split at hrun
      · have h := Except.ok.inj hrun
        subst h
        exact ⟨h0, h1, h2, h3, h4⟩
      · rename_i foundIndex hscan
        have h := Except.ok.inj hrun
        subst h
        refine ⟨h0, h1, h2, ?_, h4⟩
        intro it hit
        rcases List.mem_append.mp hit with hin | hone
        · exact h3 it hin
        · rcases hone with _ | ⟨_, hn⟩
          · rcases hgi : w.getItem ((node.items.get? foundIndex).getD "")
                with _ | item
            · decide
            · obtain ⟨k', hk'⟩ := getAssoc_mem _ _ _ hgi
              exact hWit _ hk'
          · exact absurd hn (List.not_mem_nil it)

lemma handleOpenLootbox_wf (w : World) (p : Player) (intent : Intent)
    (rng : List ℚ) (t : TurnOut) (hw : PlayerWf p)
    (hWit : ∀ kv ∈ w.items, 0 ≤ kv.2.stats.healAmount)
    (hrun : handleOpenLootbox w p intent rng = .ok t) : PlayerWf t.player := by
  obtain ⟨h0, h1, h2, h3, h4⟩ := hw
  rw [handleOpenLootbox] at hrun
  dsimp only at hrun
  split at hrun
  · have h := Except.ok.inj hrun
    subst h
    exact ⟨h0, h1, h2, h3, h4⟩
  · rename_i idx hidx
    split at hrun
    · have h := Except.ok.inj hrun
      subst h
      exact ⟨h0, h1, h2, h3, h4⟩
    · rename_i lootTable hlt
      split at hrun
      · exact Except.noConfusion hrun
      · rename_i lootItemId rng1 hroll
        split at hrun
        · rename_i lootItem hgi
          dsimp only at hrun
          have h := Except.ok.inj hrun
          subst h
          apply checkLevelUp_wf _ _ rfl
          refine ⟨h0, h1, h2, ?_, h4⟩
          intro it hit
          rcases List.mem_append.mp hit with hin | hone
          · exact eraseIdx_heal_wf _ _ h3 it hin
          · rcases hone with _ | ⟨_, hn⟩
            · obtain ⟨k', hk'⟩ := getAssoc_mem _ _ _ hgi
              exact hWit _ hk'
            · exact absurd hn (List.not_mem_nil it)
        · dsimp only at hrun
          have h := Except.ok.inj hrun
          subst h
          apply checkLevelUp_wf _ _ rfl
          exact ⟨h0, h1, h2, eraseIdx_heal_wf _ _ h3, h4⟩

lemma handleAttack_wf (w : World) (p : Player) (intent : Intent) (rng : List ℚ)
    (t : TurnOut) (hw : PlayerWf p)
    (hrun : handleAttack w p intent rng = .ok t) : PlayerWf t.player := by
  rw [handleAttack] at hrun
  rcases hnode : w.getNode p.location with _ | node
  · rw [hnode] at hrun
    simp only [orThrow, except_bind_error] at hrun
    exact Except.noConfusion hrun
  · rw [hnode] at hrun
    simp only [orThrow, except_bind_ok] at hrun
    split at hrun
    · have h := Except.ok.inj hrun
      subst h
      exact hw
    · rename_i targetEntityId hres
      split at hrun
      · have h := Except.ok.inj hrun
        subst h
        exact hw
      · rename_i entity hent
        split at hrun
        · have h := Except.ok.inj hrun
          subst h
          exact hw
        · have hc : PlayerWf (resolveCombat p entity rng).player :=
            resolveCombat_wf _ _ _ hw
          split at hrun
          · rcases hlp : attackLootPhase w node
                (resolveCombat p entity rng).entity.lootTableId
                (resolveCombat p entity rng).rng with e | quad
            · rw [hlp] at hrun
              simp only [except_bind_error] at hrun
              exact Except.noConfusion hrun
            · rw [hlp] at hrun
              simp only [except_bind_ok] at hrun
              have hfin : PlayerWf (checkLevelUp
                  { (resolveCombat p entity rng).player with
                    statisticsEntitiesKilled :=
                      (resolveCombat p entity rng).player.statisticsEntitiesKilled + 1,
                    xp := (resolveCombat p entity rng).player.xp
                      + (resolveCombat p entity rng).entity.xpReward }).1 :=
                checkLevelUp_wf _ _ rfl hc
              have h := Except.ok.inj hrun
              subst h
              split
              · exact hfin
              · exact hfin
          · have h := Except.ok.inj hrun
            subst h
            split
            · exact hc
            · exact hc

lemma handleFlee_wf (w : World) (p : Player) (rng : List ℚ) (t : TurnOut)
    (hw : PlayerWf p) (hrun : handleFlee w p rng = .ok t) : PlayerWf t.player := by
  rw [handleFlee] at hrun
  rcases hnode : w.getNode p.location with _ | node
  · rw [hnode] at hrun
    simp only [orThrow, except_bind_error] at hrun
    exact Except.noConfusion hrun
  · rw [hnode] at hrun
    simp only [orThrow, except_bind_ok] at hrun
    split at hrun
    · have h := Except.ok.inj hrun
      subst h
      exact hw
    · split at hrun
      · have h := Except.ok.inj hrun
        subst h
        exact hw
      · split at hrun
        · split at hrun
          · simp only [except_bind_ok] at hrun
            split at hrun
            · have h := Except.ok.inj hrun
              subst h
              split
              · exact hw
              · exact hw
            · have h := Except.ok.inj hrun
              subst h
              split
              · exact hw
              · exact hw
          · simp only [except_bind_error] at hrun
            exact Except.noConfusion hrun
        · have h := Except.ok.inj hrun
          subst h
          split
          · exact resolveEnemyAttack_wf _ _ _ hw
          · exact resolveEnemyAttack_wf _ _ _ hw

/-- Every action handler keeps the player well-formed, given a store
with non-negative heal amounts and in-range random draws. -/
lemma dispatchAction_wf (w : World) (p : Player) (intent : Intent) (rng : List ℚ)
    (t : TurnOut) (hw : PlayerWf p)
    (hWit : ∀ kv ∈ w.items, 0 ≤ kv.2.stats.healAmount) (hr : RngWf rng)
    (hrun : dispatchAction w p intent rng = .ok t) : PlayerWf t.player := by
  rw [dispatchAction] at hrun
  by_cases hmove : (intent.action == "move") = true
  · rw [if_pos hmove] at hrun
    exact handleMove_wf _ _ _ _ _ hw hr hrun
  · rw [if_neg hmove] at hrun
    by_cases hlook : (intent.action == "look") = true
    · rw [if_pos hlook] at hrun
      exact handleLook_wf _ _ _ _ hw hrun
    · rw [if_neg hlook] at hrun
      by_cases hattack : (intent.action == "attack") = true
      · rw [if_pos hattack] at hrun
        exact handleAttack_wf _ _ _ _ _ hw hrun
      · rw [if_neg hattack] at hrun
        by_cases hpickup : (intent.action == "pickup") = true
        · rw [if_pos hpickup] at hrun
          exact handlePickup_wf _ _ _ _ _ hw hWit hrun
        · rw [if_neg hpickup] at hrun
          by_cases huse : (intent.action == "use") = true
          · rw [if_pos huse] at hrun
            exact handleUse_wf _ _ _ _ _ hw hrun
          · rw [if_neg huse] at hrun
            by_cases hequip : (intent.action == "equip") = true
            · rw [if_pos hequip] at hrun
              exact handleEquip_wf _ _ _ _ _ hw hrun
            · rw [if_neg hequip] at hrun
              by_cases hinventory : (intent.action == "inventory") = true
              · rw [if_pos hinventory] at hrun
                exact handleInventory_wf _ _ _ _ hw hrun
              · rw [if_neg hinventory] at hrun
                by_cases hstats : (intent.action == "stats") = true
                · rw [if_pos hstats] at hrun
                  exact handleStats_wf _ _ _ _ hw hrun
                · rw [if_neg hstats] at hrun
                  by_cases hmap : (intent.action == "map") = true
                  · rw [if_pos hmap] at hrun
                    exact handleMap_wf _ _ _ _ hw hrun
                  · rw [if_neg hmap] at hrun
                    by_cases hallocate : (intent.action == "allocate") = true
                    · rw [if_pos hallocate] at hrun
                      exact handleAllocateStat_wf _ _ _ _ _ hw hrun
                    · rw [if_neg hallocate] at hrun
                      by_cases hopen : (intent.action == "open") = true
                      · rw [if_pos hopen] at hrun
                        exact handleOpenLootbox_wf _ _ _ _ _ hw hWit hrun
                      · rw [if_neg hopen] at hrun
                        by_cases hinspect : (intent.action == "inspect") = true
                        · rw [if_pos hinspect] at hrun
                          exact handleInspect_wf _ _ _ _ _ hw hrun
                        · rw [if_neg hinspect] at hrun
                          by_cases htalk : (intent.action == "talk") = true
                          · rw [if_pos htalk] at hrun
                            exact handleTalk_wf _ _ _ _ _ hw hrun
                          · rw [if_neg htalk] at hrun
                            by_cases hflee : (intent.action == "flee") = true
                            · rw [if_pos hflee] at hrun
                              exact handleFlee_wf _ _ _ _ hw hrun
                            · rw [if_neg hflee] at hrun
                              by_cases hunknown : (intent.action == "unknown") = true
                              · rw [if_pos hunknown] at hrun
                                have h := Except.ok.inj hrun
                                subst h
                                exact hw
                              · rw [if_neg hunknown] at hrun
                                have h := Except.ok.inj hrun
                                subst h
                                exact hw

/-- C9 (amended): on a well-formed store (hp within `[0, maxHp]`,
`maxHp` consistent with `calculateMaxHp`, no negative heal amounts) and
draws in `[0,1)`, every action processed by the engine returns a player
with `0 ≤ hp ≤ maxHp`. -/
theorem processAction_hp_invariant (w : World) (playerId : String)
    (intent : Intent) (rng : List ℚ) (o : ProcOut) (q : Player)
    (hW : WorldWf w) (hr : RngWf rng)
    (hrun : processAction w playerId intent rng = .ok o)
    (hq : o.player = some q) :
    0 ≤ q.hp ∧ q.hp ≤ q.maxHp := by
  rw [processAction] at hrun
  split at hrun
  · have h := Except.ok.inj hrun
    subst h
    exact Option.noConfusion hq
  · rename_i player hget
    obtain ⟨k', hk'⟩ := getAssoc_mem _ _ _ hget
    have hwP : PlayerWf player := hW.2 _ hk'
    split at hrun
    · have h := Except.ok.inj hrun
      subst h
      have hq2 := Option.some.inj hq
      rw [← hq2]
      exact ⟨hwP.1, hwP.2.1⟩
    · rcases hd : dispatchAction w player intent rng with e | t0
      · rw [hd] at hrun
        simp only [except_bind_error] at hrun
        exact Except.noConfusion hrun
      · rw [hd] at hrun
        simp only [except_bind_ok] at hrun
        have hw1 : PlayerWf (mobAggroTick t0 intent.action).player :=
          mobAggroTick_wf _ _ (dispatchAction_wf _ _ _ _ _ hwP hW.1 hr hd)
        have h := Except.ok.inj hrun
        subst h
        have hq2 := Option.some.inj hq
        rw [← hq2]
        exact ⟨hw1.1, hw1.2.1⟩

/-- C9 counterexample: the claim quantifies over every player with
`0 ≤ hp ≤ maxHp`. `c9Player` satisfies that (hp = maxHp = 100), yet
equipping recomputes `maxHp = calculateMaxHp(level, con) = 75` without
clamping hp, so the returned player has hp = 100 > maxHp = 75. -/
theorem hp_invariant_cex :
    0 ≤ c9Player.hp ∧ c9Player.hp ≤ c9Player.maxHp
    ∧ processAction c9World "p9"
        { action := "equip", target := some "c9_axe" } [] = .ok tC9
    ∧ tC9.player.map Player.hp = some 100
    ∧ tC9.player.map Player.maxHp = some 75 :=
  ⟨by decide, by decide, rfl, by decide, by decide⟩

theorem processAction_hp_invariant_witness :
    WorldWf c9WfWorld ∧ RngWf []
    ∧ (0 ≤ qC9w.hp ∧ qC9w.hp ≤ qC9w.maxHp) :=
  ⟨⟨by decide, by simp only [c9WfWorld, PlayerWf]; decide⟩, by simp [RngWf],
    processAction_hp_invariant c9WfWorld "p9w" { action := "stats" } [] tC9w qC9w
      ⟨by decide, by simp only [c9WfWorld, PlayerWf]; decide⟩
      (by simp [RngWf]) rfl rfl⟩
